import Mathlib

/-!
Verification development for the codespy-agent repository: a C++ call-graph
extractor (`extract_data.py`, `main.py`) and a knowledge-graph assembler
(`build_graph.py`).  Python dictionaries are modelled as association lists
keyed by `String`, Python sets as duplicate-free lists in insertion order,
and Python truthiness of strings/optionals is made explicit.  Filesystem
path resolution (`Path.resolve`) is modelled as the identity on plain
string paths, since no analysed property depends on OS-level resolution.
-/

/-- Python truthiness of a string: `""` is falsy, everything else truthy. -/
def pyTruthy (s : String) : Bool := !s.isEmpty

/-- Python truthiness of an optional string: `None` and `""` are falsy. -/
def pyTruthyOpt (o : Option String) : Bool :=
  match o with
  | some s => pyTruthy s
  | none => false

/-- Python `a or b` on strings: returns `b` when `a` is falsy. -/
def pyOrStr (a b : String) : String := if a.isEmpty then b else a

/-- Python `a or b` on optional strings (either side may be `None`). -/
def pyOrOpt (a b : Option String) : Option String :=
  if pyTruthyOpt a then a else b

/-- Python `a or d` with a mandatory fallback: first truthy value wins. -/
def pyOrD (a : Option String) (d : String) : String :=
  if pyTruthyOpt a then a.getD "" else d

/-- Lookup in an insertion-ordered association list (Python `dict.get`). -/
def alookup {α : Type} (k : String) : List (String × α) → Option α
  | [] => none
  | (k', v) :: rest => if k = k' then some v else alookup k rest

/-- Assignment `d[k] = v` on an insertion-ordered association list. -/
def aset {α : Type} (k : String) (v : α) : List (String × α) → List (String × α)
  | [] => [(k, v)]
  | (k', v') :: rest => if k = k' then (k, v) :: rest else (k', v') :: aset k v rest

/-- Code-point comparison of character lists, as Python compares strings. -/
def charListLt : List Char → List Char → Bool
  | [], [] => false
  | [], _ :: _ => true
  | _ :: _, [] => false
  | a :: as, b :: bs =>
      if a.toNat < b.toNat then true
      else if b.toNat < a.toNat then false
      else charListLt as bs

/-- Python `a < b` on strings (lexicographic by code point). -/
def strLt (a b : String) : Bool := charListLt a.data b.data

/-- Python `a <= b` on strings. -/
def strLe (a b : String) : Bool := !strLt b a

/-- Insert into a list sorted by `le` (used to model Python `sorted`). -/
def insertLe {α : Type} (le : α → α → Bool) (x : α) : List α → List α
  | [] => [x]
  | y :: ys => if le x y then x :: y :: ys else y :: insertLe le x ys

/-- `sorted(l, key=...)` modelled as an insertion sort with comparator `le`. -/
def sortBy {α : Type} (le : α → α → Bool) (l : List α) : List α :=
  l.foldr (insertLe le) []

/-- Python tuple comparison `(a1, a2) <= (b1, b2)` on string pairs. -/
def pairLe (x y : String × String) : Bool :=
  strLt x.1 y.1 || (x.1 == y.1 && strLe x.2 y.2)

/-- Python `str.lower` on one character (ASCII case mapping, which is all
the format names use). -/
def pyLowerChar (c : Char) : Char :=
  if 'A' ≤ c ∧ c ≤ 'Z' then Char.ofNat (c.toNat + 32) else c

/-- Python `str.lower` on a string. -/
def pyLower (s : String) : String := ⟨s.data.map pyLowerChar⟩

/-- Keep `some s` only when `s` is truthy (`if not x:` guards on ids). -/
def truthyStrOpt (o : Option String) : Option String :=
  match o with
  | some s => if s.isEmpty then none else some s
  | none => none

/-- Python whitespace (`str.strip` default set). -/
def pyWhitespaceChar (c : Char) : Bool :=
  c == ' ' || c == '\t' || c == '\n' || c == '\r' || c == '\x0b' || c == '\x0c'

/-- Characters of `l` with leading and trailing whitespace removed. -/
def pyStripChars (l : List Char) : List Char :=
  ((l.dropWhile pyWhitespaceChar).reverse.dropWhile pyWhitespaceChar).reverse

/-- Python `str.strip()`. -/
def pyStrip (s : String) : String := ⟨pyStripChars s.data⟩

/-- Python `str.lstrip()`. -/
def pyLStrip (s : String) : String := ⟨s.data.dropWhile pyWhitespaceChar⟩

/-- Whether the second list is an initial segment of the first. -/
def startsWithChars : List Char → List Char → Bool
  | _, [] => true
  | [], _ :: _ => false
  | a :: as, b :: bs => a == b && startsWithChars as bs

/-- Python `s.startswith(t)`. -/
def pyStartsWith (s t : String) : Bool := startsWithChars s.data t.data

/-- Python `s.endswith(t)`. -/
def pyEndsWith (s t : String) : Bool := startsWithChars s.data.reverse t.data.reverse

/-- Python `s[n:]`. -/
def pyDrop (s : String) (n : Nat) : String := ⟨s.data.drop n⟩

/-- Python `s[:-n]` for `n ≤ len(s)`. -/
def pyDropRight (s : String) (n : Nat) : String := ⟨s.data.take (s.data.length - n)⟩

/-- Split a character list at each line feed. -/
def splitOnNewline : List Char → List (List Char)
  | [] => [[]]
  | c :: rest =>
      if c == '\n' then [] :: splitOnNewline rest
      else
        match splitOnNewline rest with
        | [] => [[c]]
        | l :: ls => (c :: l) :: ls

/-! ## Interchange data model

The shapes of the dictionaries written by `write_json_summary` and consumed
by `build_graph`.  An `Option` field models a key that may be absent from
the dictionary (or bound to `None`). -/

/-- A `location` object: `{file, line}` or `{file, start_line, end_line}`. -/
structure Location where
  file : Option String
  line : Option Nat
  start_line : Option Nat
  end_line : Option Nat
deriving DecidableEq

/-- The empty location dictionary `{}`. -/
def emptyLocation : Location := ⟨none, none, none, none⟩

/-- One entry of a `calls[]` array. -/
structure CallEntry where
  name : Option String
  qualified : Option String
  external : Option Bool
  location : Option Location
deriving DecidableEq

/-- One function/method record of the interchange form. -/
structure FuncEntry where
  name : Option String
  qualified : Option String
  location : Option Location
  calls : List CallEntry
  description : Option String
deriving DecidableEq

/-- One `{name, methods}` class record. -/
structure ClassEntry where
  name : Option String
  methods : List FuncEntry
deriving DecidableEq

/-- The top-level analysis record. -/
structure Summary where
  project_root : String
  classes : List ClassEntry
  free_functions : List FuncEntry
deriving DecidableEq

/-! ## Knowledge-graph assembler (`build_graph.py`) -/

namespace BuildGraph

/-- Attributes attached to a graph node by `build_graph.py`.  An `Option`
field models an attribute key that may be absent. -/
structure NodeAttrs where
  type : String
  label : String
  name : String
  external : Option String
  owner : Option String
  file : Option String
  line : Option String
  description : Option String
deriving DecidableEq

/-- A `networkx.DiGraph`: insertion-ordered nodes with attributes and
directed edges carrying a `type` attribute, at most one edge per pair. -/
structure Graph where
  nodes : List (String × NodeAttrs)
  edges : List (String × String × String)
deriving DecidableEq

/-- The `functions` registry mapping a qualified name to a node id. -/
abbrev Registry := List (String × String)

/-- `entry.get("qualified") or entry.get("name") or "<anonymous>"`. -/
def effQualified (entry : FuncEntry) : String :=
  pyOrD entry.qualified (pyOrD entry.name "<anonymous>")

/-- The attribute dictionary built for a freshly created function node. -/
def mkFreshAttrs (entry : FuncEntry) (kind : String) (owner : Option String)
    (external : Bool) : NodeAttrs :=
  let qualified := effQualified entry
  let location := entry.location.getD emptyLocation
  { type := kind
    label := qualified
    name := entry.name.getD qualified
    external := some (if external then "true" else "false")
    owner := if pyTruthyOpt owner then owner else none
    file :=
      match location.file with
      | some f => if f.isEmpty then none else some f
      | none => none
    line := location.line.map (fun n => toString n)
    description := if pyTruthyOpt entry.description then entry.description else none }

/-- The attribute backfill performed when the node already exists:
`setdefault("owner", ...)` and the guarded description backfill. -/
def updatedAttrs (entry : FuncEntry) (owner : Option String)
    (attrs : NodeAttrs) : NodeAttrs :=
  let attrs1 :=
    if pyTruthyOpt owner && attrs.owner.isNone then { attrs with owner := owner }
    else attrs
  if pyTruthyOpt entry.description && !pyTruthyOpt attrs1.description then
    { attrs1 with description := entry.description }
  else attrs1

/-- `ensure_function_node`: create or reuse the node keyed by
`"function::" ++ qualified`, backfill `owner`/`description` on reuse, and
record the qualified name in the registry.  Returns the node id. -/
def ensure_function_node (graph : Graph) (registry : Registry)
    (entry : FuncEntry) (kind : String) (owner : Option String)
    (external : Bool) : Graph × Registry × String :=
  let qualified := effQualified entry
  let node_id := "function::" ++ qualified
  let graph' :=
    match alookup node_id graph.nodes with
    | none =>
        { graph with nodes := graph.nodes ++ [(node_id, mkFreshAttrs entry kind owner external)] }
    | some attrs =>
        { graph with nodes := aset node_id (updatedAttrs entry owner attrs) graph.nodes }
  (graph', aset qualified node_id registry, node_id)

/-- `graph.add_node(class_id, type="class", label=..., name=...)`:
`networkx` updates the attributes when the node already exists. -/
def add_class_node (graph : Graph) (class_id class_name : String) : Graph :=
  let attrs : NodeAttrs :=
    { type := "class", label := class_name, name := class_name,
      external := none, owner := none, file := none, line := none, description := none }
  match alookup class_id graph.nodes with
  | none => { graph with nodes := graph.nodes ++ [(class_id, attrs)] }
  | some _ => { graph with nodes := aset class_id attrs graph.nodes }

/-- `graph.has_edge(s, t)`. -/
def has_edge (graph : Graph) (s t : String) : Bool :=
  graph.edges.any (fun e => e.1 == s && e.2.1 == t)

/-- `graph.add_edge(s, t, type=ty)`: a repeated pair only refreshes the
`type` attribute (`networkx` keeps one edge per ordered pair). -/
def add_edge_nx (graph : Graph) (s t ty : String) : Graph :=
  if has_edge graph s t then
    { graph with edges := graph.edges.map (fun e => if e.1 == s && e.2.1 == t then (s, t, ty) else e) }
  else
    { graph with edges := graph.edges ++ [(s, t, ty)] }

/-- The dictionary synthesised for an unresolved call target before
`ensure_function_node` is invoked on it. -/
def synthEntry (call : CallEntry) : FuncEntry :=
  { name := call.name
    qualified := pyOrOpt call.qualified call.name
    location := some (call.location.getD emptyLocation)
    calls := []
    description := none }

/-- Process the `calls` list of one resolved caller. -/
def processCalls (caller_id : String) (acc : Graph × Registry)
    (calls : List CallEntry) : Graph × Registry :=
  calls.foldl
    (fun acc2 call =>
      let ext := call.external.getD true
      let found := truthyStrOpt (call.qualified.bind (fun q => alookup q acc2.2))
      let step :=
        match found with
        | some cid => (acc2.1, acc2.2, cid)
        | none =>
            ensure_function_node acc2.1 acc2.2 (synthEntry call)
              (if ext then "external_function" else "function") none ext
      if has_edge step.1 caller_id step.2.2 then (step.1, step.2.1)
      else ({ step.1 with edges := step.1.edges ++ [(caller_id, step.2.2, "calls")] }, step.2.1))
    acc

/-- First pass over one class entry: class node, method nodes, member edges. -/
def processClassNodes (acc : Graph × Registry) (class_entry : ClassEntry) :
    Graph × Registry :=
  let class_name := class_entry.name.getD "<anonymous>"
  let class_id := "class::" ++ class_name
  let g1 := add_class_node acc.1 class_id class_name
  class_entry.methods.foldl
    (fun acc2 method =>
      let r := ensure_function_node acc2.1 acc2.2 method "method" (some class_name) false
      (add_edge_nx r.1 class_id r.2.2 "member", r.2.1))
    (g1, acc.2)

/-- `build_graph(data)`: the four passes of the assembler. -/
def build_graph (data : Summary) : Graph × Registry :=
  let acc0 : Graph × Registry := (⟨[], []⟩, [])
  let acc1 := data.classes.foldl processClassNodes acc0
  let acc2 := data.free_functions.foldl
    (fun acc f =>
      let r := ensure_function_node acc.1 acc.2 f "function" none false
      (r.1, r.2.1))
    acc1
  let acc3 := data.classes.foldl
    (fun acc class_entry =>
      class_entry.methods.foldl
        (fun accM method =>
          match truthyStrOpt (method.qualified.bind (fun q => alookup q accM.2)) with
          | none => accM
          | some caller_id => processCalls caller_id accM method.calls)
        acc)
    acc2
  data.free_functions.foldl
    (fun acc f =>
      match truthyStrOpt (f.qualified.bind (fun q => alookup q acc.2)) with
      | none => acc
      | some caller_id => processCalls caller_id acc f.calls)
    acc3

/-- The node-identity list of an assembled graph. -/
def nodeIds (g : Graph) : List String := g.nodes.map Prod.fst

/-- Node identities paired with the value of the `type` attribute. -/
def nodeTypes (g : Graph) : List (String × String) :=
  g.nodes.map (fun p => (p.1, p.2.type))

end BuildGraph

/-! ## AST model shared by both extractor variants

A cursor is a tree of nodes (`children` drive the recursive descent); each
node additionally carries its chain of semantic ancestors, innermost first,
used for qualified-name computation and ownership classification. -/

/-- The cursor kinds the extractors dispatch on. -/
inductive CKind where
  | class_decl
  | cxx_method
  | constructor
  | destructor
  | function_template
  | function_decl
  | call_expr
  | translation_unit
  | other
deriving DecidableEq

/-- One semantic ancestor of a cursor. -/
structure Scope where
  kind : CKind
  spelling : String
  displayname : String
deriving DecidableEq

/-- The data of a referenced declaration (`cursor.referenced`). -/
structure Ref where
  usr : String
  kind : CKind
  spelling : String
  displayname : String
  ancestors : List Scope
deriving DecidableEq

/-- The per-node data consumed by the visitors. -/
structure CurData where
  kind : CKind
  spelling : String
  displayname : String
  usr : String
  is_definition : Bool
  locFile : Option String
  locLine : Nat
  extentStart : Nat
  extentEnd : Nat
  briefComment : Option String
  rawComment : Option String
  referenced : Option Ref
  ancestors : List Scope
deriving DecidableEq

mutual
/-- An AST cursor: node data plus children. -/
inductive Cur where
  | mk : CurData → CurList → Cur
/-- A list of sibling cursors. -/
inductive CurList where
  | nil : CurList
  | cons : Cur → CurList → CurList
end

/-- The names collected while walking a semantic-ancestor chain: stop at
the translation unit, keep `spelling or displayname` when truthy. -/
def scopeNames : List Scope → List String
  | [] => []
  | s :: rest =>
      if s.kind = CKind.translation_unit then []
      else
        let n := pyOrStr s.spelling s.displayname
        if n.isEmpty then scopeNames rest else n :: scopeNames rest

/-- `qualified_name(cursor)`: join the collected names outer-to-inner with
`::`, falling back to `displayname or "<anonymous>"`. -/
def qualified_name (kind : CKind) (spelling displayname : String)
    (ancestors : List Scope) : String :=
  let names := scopeNames (⟨kind, spelling, displayname⟩ :: ancestors)
  if names.isEmpty then pyOrStr displayname "<anonymous>"
  else String.intercalate "::" names.reverse

/-- `qualified_name` of a cursor from its own data. -/
def qnData (d : CurData) : String :=
  qualified_name d.kind d.spelling d.displayname d.ancestors

/-- `qualified_name` of a referenced declaration. -/
def qnRef (r : Ref) : String :=
  qualified_name r.kind r.spelling r.displayname r.ancestors

/-- `qualified_name` of a semantic parent whose own ancestors are `rest`. -/
def qnScope (parent : Scope) (rest : List Scope) : String :=
  qualified_name parent.kind parent.spelling parent.displayname rest

/-- `relative_to_project` on plain string paths. -/
def relative_to_project (path project_root : String) : String :=
  if path = project_root then "."
  else if pyStartsWith path (project_root ++ "/") then
    pyDrop path (project_root ++ "/").length
  else path

/-- Python `str.splitlines`, modelled as splitting on a line feed with a
trailing carriage return removed. -/
def splitLines (s : String) : List String :=
  (splitOnNewline s.data).map
    (fun l => let t : String := ⟨l⟩; if pyEndsWith t "\r" then pyDropRight t 1 else t)

/-- Strip one leading comment marker (first match wins, as in the source's
ordered tuple of prefixes). -/
def stripCommentMarker (s : String) : String :=
  if pyStartsWith s "///" then pyLStrip (pyDrop s 3)
  else if pyStartsWith s "//!<" then pyLStrip (pyDrop s 4)
  else if pyStartsWith s "//!>" then pyLStrip (pyDrop s 4)
  else if pyStartsWith s "//!" then pyLStrip (pyDrop s 3)
  else if pyStartsWith s "//" then pyLStrip (pyDrop s 2)
  else s

/-- Clean one raw-comment line. -/
def cleanCommentLine (line : String) : String :=
  let s := pyStrip line
  let s := if pyStartsWith s "*" then pyLStrip (pyDrop s 1) else s
  stripCommentMarker s

/-- `extract_comment_text(cursor)` on the cursor's comment strings. -/
def extract_comment_text (briefComment rawComment : Option String) :
    Option String :=
  if pyTruthyOpt briefComment then
    let stripped := pyStrip (briefComment.getD "")
    if stripped.isEmpty then none else some stripped
  else
    match rawComment with
    | none => none
    | some raw0 =>
        if raw0.isEmpty then none
        else
          let raw1 := pyStrip raw0
          let raw2 := if pyStartsWith raw1 "/*" then pyDrop raw1 2 else raw1
          let raw3 := if pyEndsWith raw2 "*/" then pyDropRight raw2 2 else raw2
          let cleaned_lines := (splitLines raw3).map cleanCommentLine
          let cleaned :=
            pyStrip (String.intercalate " " (cleaned_lines.filter (fun q => !q.isEmpty)))
          if cleaned.isEmpty then none else some cleaned

/-! ## Call-graph extractor (`extract_data.py`) -/

namespace ExtractData

/-- The per-symbol record stored in `function_data`. -/
structure FuncInfo where
  qualified : String
  simple : String
  file : String
  start_line : Nat
  end_line : Nat
  calls : List (Option String × String)
  description : Option String
deriving DecidableEq

/-- The extractor's mutable state: `classes`, `free_functions`,
`function_data`. -/
structure EState where
  classes : List (String × List String)
  free_functions : List String
  function_data : List (String × FuncInfo)
deriving DecidableEq

/-- The empty initial state. -/
def emptyEState : EState := ⟨[], [], []⟩

/-- `function_kinds` of `extract_data.py`: constructors and destructors are
commented out in the source. -/
def function_kinds (k : CKind) : Bool :=
  k == CKind.cxx_method || k == CKind.function_template || k == CKind.function_decl

/-- `classes.setdefault(class_name, set())`. -/
def setdefaultClass (name : String) (st : EState) : EState :=
  match alookup name st.classes with
  | some _ => st
  | none => { st with classes := st.classes ++ [(name, [])] }

/-- `classes[class_name].add(usr)` on a `defaultdict(set)`. -/
def addClassMember (name usr : String) (st : EState) : EState :=
  match alookup name st.classes with
  | some members =>
      if members.contains usr then st
      else { st with classes := aset name (members ++ [usr]) st.classes }
  | none => { st with classes := st.classes ++ [(name, [usr])] }

/-- `free_functions.add(usr)`. -/
def addFree (usr : String) (st : EState) : EState :=
  if st.free_functions.contains usr then st
  else { st with free_functions := st.free_functions ++ [usr] }

/-- `record_function(cursor)`: register a symbol, or backfill a missing
description on a later sighting of the same USR. -/
def record_function (project_root : String) (d : CurData) (st : EState) :
    Option String × EState :=
  match d.locFile with
  | none => (none, st)
  | some f =>
      if d.usr.isEmpty then (none, st)
      else
        match alookup d.usr st.function_data with
        | none =>
            let info : FuncInfo :=
              { qualified := qnData d
                simple := pyOrStr d.spelling (pyOrStr d.displayname "<anonymous>")
                file := relative_to_project f project_root
                start_line := d.extentStart
                end_line := d.extentEnd
                calls := []
                description := extract_comment_text d.briefComment d.rawComment }
            (some d.usr, { st with function_data := st.function_data ++ [(d.usr, info)] })
        | some info =>
            if pyTruthyOpt info.description then (some d.usr, st)
            else
              let comment_text := extract_comment_text d.briefComment d.rawComment
              if pyTruthyOpt comment_text then
                let fd := aset d.usr ({ info with description := comment_text }) st.function_data
                (some d.usr, { st with function_data := fd })
              else (some d.usr, st)

/-- The `(callee_usr, callee_name)` pair computed for a call expression. -/
def calleeOf (d : CurData) : Option String × String :=
  match d.referenced with
  | some r => (if r.usr.isEmpty then none else some r.usr, qnRef r)
  | none => (none, pyOrStr d.displayname (pyOrStr d.spelling "<unknown>"))

/-- `function_data[current_function_usr]["calls"].add(pair)`. -/
def add_call (u : String) (c : Option String × String) (st : EState) : EState :=
  match alookup u st.function_data with
  | some info =>
      if info.calls.contains c then st
      else { st with function_data := aset u { info with calls := info.calls ++ [c] } st.function_data }
  | none => st

/-- The state update performed on a call-expression node (the membership
predicate is not consulted here). -/
def callStep (d : CurData) (current_function_usr : Option String) (st : EState) :
    EState :=
  if d.kind == CKind.call_expr && pyTruthyOpt current_function_usr
      && (match current_function_usr with
          | some u => (alookup u st.function_data).isSome
          | none => false) then
    let c := calleeOf d
    if c.2.isEmpty then st
    else add_call (current_function_usr.getD "") c st
  else st

/-- The node-local part of `visit`: the class registration, the function
registration with ownership classification, and the call recording.
Returns the context passed to the children together with the new state. -/
def visitStep (project_root : String) (p : CurData → Bool) (d : CurData)
    (current_function_usr : Option String) (st0 : EState) :
    Option String × EState :=
  let st1 :=
    if d.kind == CKind.class_decl && d.is_definition && p d then
      setdefaultClass (qnData d) st0
    else st0
  if function_kinds d.kind && d.is_definition && p d then
    match record_function project_root d st1 with
    | (none, st2) => (current_function_usr, st2)
    | (some usr, st2) =>
        let st3 :=
          match d.ancestors with
          | parent :: rest =>
              if parent.kind == CKind.class_decl && !parent.spelling.isEmpty then
                addClassMember (qnScope parent rest) usr st2
              else addFree usr st2
          | [] => addFree usr st2
        (some usr, st3)
  else (current_function_usr, callStep d current_function_usr st1)

mutual
/-- `visit(cursor, current_function_usr)` of `extract_data.py`. -/
def visit (project_root : String) (p : CurData → Bool) :
    Cur → Option String → EState → EState
  | Cur.mk d cs, current_function_usr, st0 =>
      let r := visitStep project_root p d current_function_usr st0
      visitList project_root p cs r.1 r.2

/-- Visit a list of children in order. -/
def visitList (project_root : String) (p : CurData → Bool) :
    CurList → Option String → EState → EState
  | CurList.nil, _, st => st
  | CurList.cons c rest, cur, st =>
      visitList project_root p rest cur (visit project_root p c cur st)
end

end ExtractData

namespace ExtractData

/-- One `calls[]` payload entry of `write_json_summary`: resolved callees
carry `external=false` plus the callee's recorded location, everything else
is `external=true` with no location. -/
def mkCallEntry (function_data : List (String × FuncInfo))
    (c : Option String × String) : CallEntry :=
  let resolved :=
    match c.1 with
    | some u => if u.isEmpty then none else alookup u function_data
    | none => none
  match resolved with
  | some callee_info =>
      { name := some c.2
        qualified := some callee_info.qualified
        external := some false
        location := some
          { file := some callee_info.file
            line := none
            start_line := some callee_info.start_line
            end_line := some callee_info.end_line } }
  | none =>
      { name := some c.2, qualified := some c.2, external := some true, location := none }

/-- The interchange record written for one recorded symbol (methods and
free functions share this shape). -/
def funcEntryOf (function_data : List (String × FuncInfo)) (info : FuncInfo) :
    FuncEntry :=
  { name := some info.simple
    qualified := some info.qualified
    location := some
      { file := some info.file
        line := none
        start_line := some info.start_line
        end_line := some info.end_line }
    calls := (sortBy (fun a b => strLe a.2 b.2) info.calls).map (mkCallEntry function_data)
    description := if pyTruthyOpt info.description then info.description else none }

/-- The `{name, methods}` record for one class: owned USRs are filtered to
recorded ones and sorted by `(simple, usr)`. -/
def classEntryOf (function_data : List (String × FuncInfo))
    (entry : String × List String) : ClassEntry :=
  let pairs := entry.2.filterMap
    (fun usr => (alookup usr function_data).map (fun i => (i.simple, usr)))
  let sortedPairs := sortBy pairLe pairs
  { name := some entry.1
    methods := sortedPairs.filterMap
      (fun pr => (alookup pr.2 function_data).map (funcEntryOf function_data)) }

/-- Sort key used for the free-function section. -/
def freeQualifiedOf (function_data : List (String × FuncInfo)) (usr : String) :
    String :=
  match alookup usr function_data with
  | some info => info.qualified
  | none => ""

/-- `write_json_summary`: build the canonical interchange record.  A free
USR missing from `function_data` raises a `KeyError` in the source, which
is modelled as `none`. -/
def write_json_summary (project_root : String)
    (classes : List (String × List String)) (free_functions : List String)
    (function_data : List (String × FuncInfo)) : Option Summary :=
  if free_functions.all (fun u => (alookup u function_data).isSome) then
    let sortedClasses := sortBy (fun a b => strLe a.1 b.1) classes
    let sortedFree :=
      sortBy (fun a b => strLe (freeQualifiedOf function_data a) (freeQualifiedOf function_data b))
        free_functions
    some
      { project_root := project_root
        classes := sortedClasses.map (classEntryOf function_data)
        free_functions := sortedFree.filterMap
          (fun usr => (alookup usr function_data).map (funcEntryOf function_data)) }
  else none

end ExtractData

/-! ## The `main.py` variant of the extractor -/

namespace MainPy

/-- The per-symbol record of `main.py`: a single line, no description. -/
structure FuncInfo where
  qualified : String
  simple : String
  file : String
  line : Nat
  calls : List (Option String × String)
deriving DecidableEq

/-- The state of `main.py`'s `analyze_project` traversal. -/
structure MState where
  classes : List (String × List String)
  free_functions : List String
  function_data : List (String × FuncInfo)
deriving DecidableEq

/-- The empty initial state. -/
def emptyMState : MState := ⟨[], [], []⟩

/-- `function_kinds` of `main.py`: constructors and destructors included. -/
def function_kinds (k : CKind) : Bool :=
  k == CKind.cxx_method || k == CKind.constructor || k == CKind.destructor
    || k == CKind.function_template || k == CKind.function_decl

/-- `in_project(cursor)`: the location's file equals the project root or
lies below it. -/
def in_project (project_root : String) (d : CurData) : Bool :=
  match d.locFile with
  | none => false
  | some f => f == project_root || pyStartsWith f (project_root ++ "/")

/-- `classes.setdefault(class_name, set())`. -/
def setdefaultClass (name : String) (st : MState) : MState :=
  match alookup name st.classes with
  | some _ => st
  | none => { st with classes := st.classes ++ [(name, [])] }

/-- `classes[class_name].add(usr)` on a `defaultdict(set)`. -/
def addClassMember (name usr : String) (st : MState) : MState :=
  match alookup name st.classes with
  | some members =>
      if members.contains usr then st
      else { st with classes := aset name (members ++ [usr]) st.classes }
  | none => { st with classes := st.classes ++ [(name, [usr])] }

/-- `free_functions.add(usr)`. -/
def addFree (usr : String) (st : MState) : MState :=
  if st.free_functions.contains usr then st
  else { st with free_functions := st.free_functions ++ [usr] }

/-- `record_function(cursor)` of `main.py`: no description handling, no
update on re-registration. -/
def record_function (project_root : String) (d : CurData) (st : MState) :
    Option String × MState :=
  match d.locFile with
  | none => (none, st)
  | some f =>
      if d.usr.isEmpty then (none, st)
      else
        match alookup d.usr st.function_data with
        | none =>
            let info : FuncInfo :=
              { qualified := qnData d
                simple := pyOrStr d.spelling (pyOrStr d.displayname "<anonymous>")
                file := relative_to_project f project_root
                line := d.locLine
                calls := [] }
            (some d.usr, { st with function_data := st.function_data ++ [(d.usr, info)] })
        | some _ => (some d.usr, st)

/-- `function_data[current_function_usr]["calls"].add(pair)`. -/
def add_call (u : String) (c : Option String × String) (st : MState) : MState :=
  match alookup u st.function_data with
  | some info =>
      if info.calls.contains c then st
      else { st with function_data := aset u ({ info with calls := info.calls ++ [c] }) st.function_data }
  | none => st

/-- The state update performed on a call-expression node. -/
def callStep (d : CurData) (current_function_usr : Option String) (st : MState) :
    MState :=
  if d.kind == CKind.call_expr && pyTruthyOpt current_function_usr
      && (match current_function_usr with
          | some u => (alookup u st.function_data).isSome
          | none => false) then
    let c := ExtractData.calleeOf d
    if c.2.isEmpty then st
    else add_call (current_function_usr.getD "") c st
  else st

/-- The node-local part of `main.py`'s `visit` (same shape as in
`extract_data.py`, but with its own `function_kinds` and records). -/
def visitStep (project_root : String) (p : CurData → Bool) (d : CurData)
    (current_function_usr : Option String) (st0 : MState) :
    Option String × MState :=
  let st1 :=
    if d.kind == CKind.class_decl && d.is_definition && p d then
      setdefaultClass (qnData d) st0
    else st0
  if function_kinds d.kind && d.is_definition && p d then
    match record_function project_root d st1 with
    | (none, st2) => (current_function_usr, st2)
    | (some usr, st2) =>
        let st3 :=
          match d.ancestors with
          | parent :: rest =>
              if parent.kind == CKind.class_decl && !parent.spelling.isEmpty then
                addClassMember (qnScope parent rest) usr st2
              else addFree usr st2
          | [] => addFree usr st2
        (some usr, st3)
  else (current_function_usr, callStep d current_function_usr st1)

mutual
/-- `visit(cursor, current_function_usr)` of `main.py`. -/
def visit (project_root : String) (p : CurData → Bool) :
    Cur → Option String → MState → MState
  | Cur.mk d cs, current_function_usr, st0 =>
      let r := visitStep project_root p d current_function_usr st0
      visitList project_root p cs r.1 r.2

/-- Visit a list of children in order. -/
def visitList (project_root : String) (p : CurData → Bool) :
    CurList → Option String → MState → MState
  | CurList.nil, _, st => st
  | CurList.cons c rest, cur, st =>
      visitList project_root p rest cur (visit project_root p c cur st)
end

/-- One `calls[]` payload entry of `main.py`'s `write_json_summary`:
resolved callees carry a `{file, line}` location. -/
def mkCallEntry (function_data : List (String × FuncInfo))
    (c : Option String × String) : CallEntry :=
  let resolved :=
    match c.1 with
    | some u => if u.isEmpty then none else alookup u function_data
    | none => none
  match resolved with
  | some callee_info =>
      { name := some c.2
        qualified := some callee_info.qualified
        external := some false
        location := some
          { file := some callee_info.file
            line := some callee_info.line
            start_line := none
            end_line := none } }
  | none =>
      { name := some c.2, qualified := some c.2, external := some true, location := none }

end MainPy

/-! ## JSON interchange layer

`write_json_summary` serialises the summary with `json.dumps` and
`load_analysis` reads it back with `json.load`; both operate on the same
JSON value tree, modelled here as `J`.  `encSummary` maps the typed
summary to the tree that is written; the `dec*` functions read the tree
back the way `build_graph` accesses it. -/

/-- A JSON value. -/
inductive J where
  | null
  | b (v : Bool)
  | n (v : Nat)
  | s (v : String)
  | arr (vs : List J)
  | obj (kvs : List (String × J))

/-- A key present exactly when the optional value is present. -/
def optKV (k : String) (v : Option J) : List (String × J) :=
  match v with
  | some j => [(k, j)]
  | none => []

/-- Field access on a JSON object. -/
def getField (kvs : List (String × J)) (k : String) : Option J :=
  alookup k kvs

/-- Read a string field. -/
def getStr (kvs : List (String × J)) (k : String) : Option String :=
  match getField kvs k with
  | some (J.s v) => some v
  | _ => none

/-- Read a numeric field. -/
def getNat (kvs : List (String × J)) (k : String) : Option Nat :=
  match getField kvs k with
  | some (J.n v) => some v
  | _ => none

/-- Read a boolean field. -/
def getBool (kvs : List (String × J)) (k : String) : Option Bool :=
  match getField kvs k with
  | some (J.b v) => some v
  | _ => none

/-- Encode a location object. -/
def encLocation (l : Location) : J :=
  J.obj (optKV "file" (l.file.map J.s) ++ optKV "line" (l.line.map J.n)
    ++ optKV "start_line" (l.start_line.map J.n) ++ optKV "end_line" (l.end_line.map J.n))

/-- Decode a location object. -/
def decLocation : J → Option Location
  | J.obj kvs =>
      some
        { file := getStr kvs "file"
          line := getNat kvs "line"
          start_line := getNat kvs "start_line"
          end_line := getNat kvs "end_line" }
  | _ => none

/-- Decode an optional location field. -/
def decOptLocation (o : Option J) : Option (Option Location) :=
  match o with
  | none => some none
  | some j => (decLocation j).map some

/-- Encode one `calls[]` entry. -/
def encCallEntry (c : CallEntry) : J :=
  J.obj (optKV "name" (c.name.map J.s) ++ optKV "qualified" (c.qualified.map J.s)
    ++ optKV "external" (c.external.map J.b) ++ optKV "location" (c.location.map encLocation))

/-- Decode one `calls[]` entry. -/
def decCallEntry : J → Option CallEntry
  | J.obj kvs =>
      (decOptLocation (getField kvs "location")).map
        (fun lo =>
          { name := getStr kvs "name"
            qualified := getStr kvs "qualified"
            external := getBool kvs "external"
            location := lo })
  | _ => none

/-- Decode a list of `calls[]` entries. -/
def decCallEntries : List J → Option (List CallEntry)
  | [] => some []
  | j :: rest =>
      (decCallEntry j).bind (fun c => (decCallEntries rest).map (fun cs => c :: cs))

/-- Encode one function/method record. -/
def encFuncEntry (f : FuncEntry) : J :=
  J.obj (optKV "name" (f.name.map J.s) ++ optKV "qualified" (f.qualified.map J.s)
    ++ optKV "location" (f.location.map encLocation)
    ++ [("calls", J.arr (f.calls.map encCallEntry))]
    ++ optKV "description" (f.description.map J.s))

/-- Decode one function/method record. -/
def decFuncEntry : J → Option FuncEntry
  | J.obj kvs =>
      match getField kvs "calls" with
      | some (J.arr cj) =>
          (decOptLocation (getField kvs "location")).bind
            (fun lo =>
              (decCallEntries cj).map
                (fun cl =>
                  { name := getStr kvs "name"
                    qualified := getStr kvs "qualified"
                    location := lo
                    calls := cl
                    description := getStr kvs "description" }))
      | _ => none
  | _ => none

/-- Decode a list of function/method records. -/
def decFuncEntries : List J → Option (List FuncEntry)
  | [] => some []
  | j :: rest =>
      (decFuncEntry j).bind (fun f => (decFuncEntries rest).map (fun fs => f :: fs))

/-- Encode one class record. -/
def encClassEntry (c : ClassEntry) : J :=
  J.obj (optKV "name" (c.name.map J.s)
    ++ [("methods", J.arr (c.methods.map encFuncEntry))])

/-- Decode one class record. -/
def decClassEntry : J → Option ClassEntry
  | J.obj kvs =>
      match getField kvs "methods" with
      | some (J.arr mj) =>
          (decFuncEntries mj).map (fun ms => { name := getStr kvs "name", methods := ms })
      | _ => none
  | _ => none

/-- Decode a list of class records. -/
def decClassEntries : List J → Option (List ClassEntry)
  | [] => some []
  | j :: rest =>
      (decClassEntry j).bind (fun c => (decClassEntries rest).map (fun cs => c :: cs))

/-- Encode the top-level summary. -/
def encSummary (s : Summary) : J :=
  J.obj [("project_root", J.s s.project_root),
    ("classes", J.arr (s.classes.map encClassEntry)),
    ("free_functions", J.arr (s.free_functions.map encFuncEntry))]

/-- Decode the top-level summary. -/
def decSummary : J → Option Summary
  | J.obj kvs =>
      match getStr kvs "project_root", getField kvs "classes",
          getField kvs "free_functions" with
      | some root, some (J.arr cj), some (J.arr fj) =>
          (decClassEntries cj).bind
            (fun cs =>
              (decFuncEntries fj).map
                (fun fs => { project_root := root, classes := cs, free_functions := fs }))
      | _, _, _ => none
  | _ => none

namespace BuildGraph

/-- The externally observable steps taken by `build_graph.main`. -/
inductive Effect where
  | loadAnalysis
  | assemble
  | writeOutput (fmt : String)
  | exportNeo4j
  | render
deriving DecidableEq

/-- The formats accepted by `main`'s check. -/
def valid_formats : List String := ["graphml", "gexf", "json"]

/-- `write_graph`'s own format dispatch: `some msg` models the
`ValueError` raised for an unsupported format. -/
def write_graph (fmt : String) : Option String :=
  if fmt == "graphml" then none
  else if fmt == "gexf" then none
  else if fmt == "json" then none
  else some ("Unsupported format: " ++ fmt)

/-- `main()` of `build_graph.py` as a trace of effects paired with the
fatal error, if any: the analysis is loaded and the graph is assembled
before the configured output format is validated. -/
def main (analysis_exists : Bool) (data : Summary) (graph_output_format : String)
    (neo4j_export_enabled render_show render_save : Bool) :
    List Effect × Option String :=
  if !analysis_exists then ([], some "Analysis file not found")
  else
    let graph := (build_graph data).1
    let fmt := pyLower graph_output_format
    if !(valid_formats.contains fmt) then
      ([Effect.loadAnalysis, Effect.assemble],
       some ("Unsupported format configured: " ++ graph_output_format))
    else
      match write_graph fmt with
      | some msg => ([Effect.loadAnalysis, Effect.assemble], some msg)
      | none =>
          let base := [Effect.loadAnalysis, Effect.assemble, Effect.writeOutput fmt]
          let base2 := if neo4j_export_enabled then base ++ [Effect.exportNeo4j] else base
          let base3 :=
            if (render_show || render_save) && decide (0 < graph.nodes.length) then
              base2 ++ [Effect.render]
            else base2
          (base3, none)

end BuildGraph


namespace ExtractData

/-- The description currently recorded for a USR, if any. -/
def getDescription (st : EState) (u : String) : Option String :=
  match alookup u st.function_data with
  | some info => info.description
  | none => none

/-- The calls currently recorded for a USR. -/
def getCalls (st : EState) (u : String) : List (Option String × String) :=
  match alookup u st.function_data with
  | some info => info.calls
  | none => []

end ExtractData

namespace MainPy

/-- Whether `usr` is recorded in the method set of class `cls`. -/
def memberRecorded (st : MState) (cls usr : String) : Bool :=
  match alookup cls st.classes with
  | some ms => ms.contains usr
  | none => false

end MainPy

/-- All `calls[]` entries occurring anywhere in a summary. -/
def allCallEntries (s : Summary) : List CallEntry :=
  (s.classes.flatMap (fun c => c.methods.flatMap (fun m => m.calls)))
    ++ s.free_functions.flatMap (fun m => m.calls)

/-! ## Concrete inputs used to settle the claims -/

/-- Scenario A interchange record: class `Calc` with method `add` calling
the in-scope free function `clamp` and the out-of-scope `std::max`. -/
def scenarioA : Summary :=
  { project_root := "."
    classes := [
      { name := some "Calc"
        methods := [
          { name := some "add"
            qualified := some "Calc::add"
            location := some ⟨some "calc.cpp", none, some 4, some 7⟩
            calls := [
              { name := some "clamp", qualified := some "clamp", external := some false,
                location := some ⟨some "calc.cpp", none, some 1, some 3⟩ },
              { name := some "std::max", qualified := some "std::max",
                external := some true, location := none }]
            description := none }] }]
    free_functions := [
      { name := some "clamp", qualified := some "clamp",
        location := some ⟨some "calc.cpp", none, some 1, some 3⟩, calls := [],
        description := none }] }

/-- Scenario B interchange record: two free functions both calling the
unresolvable name `log`. -/
def scenarioB : Summary :=
  { project_root := "."
    classes := []
    free_functions := [
      { name := some "f", qualified := some "f",
        location := some ⟨some "a.cpp", none, some 1, some 2⟩,
        calls := [⟨some "log", some "log", some true, none⟩], description := none },
      { name := some "g", qualified := some "g",
        location := some ⟨some "a.cpp", none, some 3, some 4⟩,
        calls := [⟨some "log", some "log", some true, none⟩], description := none }] }

/-- The semantic scope of class `Calc`. -/
def calcScope : Scope := ⟨CKind.class_decl, "Calc", "Calc"⟩

/-- Cursor data of the class definition `Calc`. -/
def calcClassData : CurData :=
  { kind := CKind.class_decl, spelling := "Calc", displayname := "Calc",
    usr := "c:@S@Calc", is_definition := true, locFile := some "proj/calc.cpp",
    locLine := 1, extentStart := 1, extentEnd := 20, briefComment := none,
    rawComment := none, referenced := none, ancestors := [] }

/-- Cursor data of the overload `Calc::add(int)`. -/
def addIntData : CurData :=
  { kind := CKind.cxx_method, spelling := "add", displayname := "add(int)",
    usr := "c:@S@Calc@F@add#I#", is_definition := true,
    locFile := some "proj/calc.cpp", locLine := 4, extentStart := 4, extentEnd := 6,
    briefComment := none, rawComment := none, referenced := none,
    ancestors := [calcScope] }

/-- Cursor data of the overload `Calc::add(double)`. -/
def addDblData : CurData :=
  { kind := CKind.cxx_method, spelling := "add", displayname := "add(double)",
    usr := "c:@S@Calc@F@add#d#", is_definition := true,
    locFile := some "proj/calc.cpp", locLine := 8, extentStart := 8, extentEnd := 10,
    briefComment := none, rawComment := none, referenced := none,
    ancestors := [calcScope] }

/-- The class `Calc` with its two `add` overload definitions as children. -/
def overloadTree : Cur :=
  Cur.mk calcClassData
    (CurList.cons (Cur.mk addIntData CurList.nil)
      (CurList.cons (Cur.mk addDblData CurList.nil) CurList.nil))

/-- The extractor state after traversing `overloadTree`. -/
def overloadState : ExtractData.EState :=
  ExtractData.visit "proj" (fun _ => true) overloadTree none ExtractData.emptyEState

/-- A call expression located in a header outside the membership scope. -/
def headerCallData : CurData :=
  { kind := CKind.call_expr, spelling := "helper", displayname := "helper()",
    usr := "", is_definition := false, locFile := some "lib/other.h",
    locLine := 12, extentStart := 12, extentEnd := 12, briefComment := none,
    rawComment := none, referenced := none, ancestors := [] }

/-- The recorded caller that is active when `headerCallData` is visited. -/
def runInfo : ExtractData.FuncInfo := ⟨"run", "run", "calc.cpp", 1, 5, [], none⟩

/-- State with the single recorded free function `run`. -/
def runState : ExtractData.EState := ⟨[], ["u-run"], [("u-run", runInfo)]⟩

/-- A membership predicate accepting only nodes located in `calc.cpp`. -/
def calcOnly (d : CurData) : Bool := d.locFile == some "calc.cpp"

/-- Cursor data of a constructor definition `Calc::Calc` inside the
analysed unit. -/
def ctorData : CurData :=
  { kind := CKind.constructor, spelling := "Calc", displayname := "Calc()",
    usr := "c:@S@Calc@F@Calc#", is_definition := true,
    locFile := some "proj/calc.cpp", locLine := 2, extentStart := 2, extentEnd := 3,
    briefComment := none, rawComment := none, referenced := none,
    ancestors := [calcScope] }

/-- First sighting of `Calc::add`: a definition with no attached comment. -/
def addNoCommentData : CurData :=
  { kind := CKind.cxx_method, spelling := "add", displayname := "add(int)",
    usr := "u-add", is_definition := true, locFile := some "proj/calc.cpp",
    locLine := 4, extentStart := 4, extentEnd := 4, briefComment := none,
    rawComment := none, referenced := none, ancestors := [calcScope] }

/-- Second sighting of `Calc::add`: the redefinition carries a comment. -/
def addCommentedData : CurData :=
  { kind := CKind.cxx_method, spelling := "add", displayname := "add(int)",
    usr := "u-add", is_definition := true, locFile := some "proj/calc.cpp",
    locLine := 10, extentStart := 10, extentEnd := 12,
    briefComment := some "Adds two numbers.", rawComment := none,
    referenced := none, ancestors := [calcScope] }

/-- The recorded facts used in the round-trip witness. -/
def c6Info : ExtractData.FuncInfo := ⟨"Calc::add", "add", "calc.cpp", 4, 7, [(none, "log")], none⟩

/-- The summary produced from the round-trip witness facts. -/
def c6Summary : Summary :=
  { project_root := "."
    classes := [⟨some "Calc", [ExtractData.funcEntryOf [("u1", c6Info)] c6Info]⟩]
    free_functions := [] }

/-- Scenario C sibling list: the same method definition visited twice, the
comment present only on the second sighting. -/
def scenarioCList : CurList :=
  CurList.cons (Cur.mk addNoCommentData CurList.nil)
    (CurList.cons (Cur.mk addCommentedData CurList.nil) CurList.nil)

/-- The extractor state after the first, comment-free sighting. -/
def scenarioCMid : ExtractData.EState :=
  ExtractData.visit "proj" (fun _ => true) (Cur.mk addNoCommentData CurList.nil)
    none ExtractData.emptyEState

/-- The extractor state after both Scenario C sightings. -/
def scenarioCState : ExtractData.EState :=
  ExtractData.visitList "proj" (fun _ => true) scenarioCList none ExtractData.emptyEState

namespace MainPy

/-- The ownership classification `visit` performs from the semantic parent:
`some class_qualified_name` when the parent is a named class definition,
`none` (free function) otherwise. -/
def classTargetOf (d : CurData) : Option String :=
  match d.ancestors with
  | parent :: rest =>
      if parent.kind == CKind.class_decl && !parent.spelling.isEmpty then
        some (qnScope parent rest)
      else none
  | [] => none

/-- `usr` is registered in the state and classified according to `target`. -/
def registeredAs (st : MState) (usr : String) (target : Option String) : Prop :=
  (alookup usr st.function_data).isSome = true
  ∧ (match target with
     | some cls => memberRecorded st cls usr = true
     | none => st.free_functions.contains usr = true)

end MainPy

/-! ### Round-trip lemmas for the JSON layer -/

theorem decLocation_enc (l : Location) : decLocation (encLocation l) = some l := by
  rcases l with ⟨f, li, sl, el⟩
  cases f <;> cases li <;> cases sl <;> cases el <;> rfl

theorem decCallEntry_enc (c : CallEntry) : decCallEntry (encCallEntry c) = some c := by
  rcases c with ⟨n, q, e, lo⟩
  cases n <;> cases q <;> cases e <;> cases lo <;>
    simp +decide [encCallEntry, decCallEntry, decOptLocation, optKV, getField, getStr,
      getBool, alookup, decLocation_enc]

theorem decCallEntries_enc (cs : List CallEntry) :
    decCallEntries (cs.map encCallEntry) = some cs := by
  induction cs with
  | nil => rfl
  | cons c rest ih => simp [decCallEntries, decCallEntry_enc, ih]

theorem decFuncEntry_enc (f : FuncEntry) : decFuncEntry (encFuncEntry f) = some f := by
  rcases f with ⟨n, q, lo, cs, de⟩
  cases n <;> cases q <;> cases lo <;> cases de <;>
    simp +decide [encFuncEntry, decFuncEntry, decOptLocation, optKV, getField, getStr,
      getBool, alookup, decLocation_enc, decCallEntries_enc]

theorem decFuncEntries_enc (fs : List FuncEntry) :
    decFuncEntries (fs.map encFuncEntry) = some fs := by
  induction fs with
  | nil => rfl
  | cons f rest ih => simp [decFuncEntries, decFuncEntry_enc, ih]

theorem decClassEntry_enc (c : ClassEntry) : decClassEntry (encClassEntry c) = some c := by
  rcases c with ⟨n, ms⟩
  cases n <;>
    simp +decide [encClassEntry, decClassEntry, optKV, getField, getStr, alookup,
      decFuncEntries_enc]

theorem decClassEntries_enc (cs : List ClassEntry) :
    decClassEntries (cs.map encClassEntry) = some cs := by
  induction cs with
  | nil => rfl
  | cons c rest ih => simp [decClassEntries, decClassEntry_enc, ih]

theorem decSummary_enc (s : Summary) : decSummary (encSummary s) = some s := by
  rcases s with ⟨root, cs, fs⟩
  simp +decide [encSummary, decSummary, getField, getStr, alookup,
    decClassEntries_enc, decFuncEntries_enc]

/-! ### Association-list lemmas -/

theorem alookup_append {α : Type} (k : String) (l m : List (String × α)) :
    alookup k (l ++ m) =
      match alookup k l with
      | some v => some v
      | none => alookup k m := by
  induction l with
  | nil => simp [alookup]
  | cons p rest ih =>
      rcases p with ⟨k', v⟩
      by_cases h : k = k' <;> simp [alookup, h, ih]

theorem alookup_aset_self {α : Type} (k : String) (v : α) (l : List (String × α)) :
    alookup k (aset k v l) = some v := by
  induction l with
  | nil => simp [aset, alookup]
  | cons p rest ih =>
      rcases p with ⟨k', v'⟩
      by_cases h : k = k' <;> simp [aset, alookup, h, ih]

theorem alookup_aset_ne {α : Type} {u k : String} (h : u ≠ k) (v : α)
    (l : List (String × α)) : alookup u (aset k v l) = alookup u l := by
  induction l with
  | nil => simp [aset, alookup, h]
  | cons p rest ih =>
      rcases p with ⟨k', v'⟩
      by_cases h2 : k = k'
      · subst h2
        simp [aset, alookup, h]
      · by_cases h3 : u = k' <;> simp [aset, alookup, h2, h3, ih]

theorem not_mem_keys_of_alookup_none {α : Type} {k : String}
    {l : List (String × α)} (h : alookup k l = none) : k ∉ l.map Prod.fst := by
  induction l with
  | nil => simp
  | cons p rest ih =>
      rcases p with ⟨k', v⟩
      by_cases h2 : k = k'
      · simp [alookup, h2] at h
      · simp only [alookup, h2, if_false] at h
        simpa [h2] using ih h

theorem mem_keys_aset {α : Type} {x k : String} (v : α)
    {l : List (String × α)} (h : x ∈ (aset k v l).map Prod.fst) :
    x ∈ l.map Prod.fst ∨ x = k := by
  induction l with
  | nil => simpa [aset] using h
  | cons p rest ih =>
      rcases p with ⟨k', v'⟩
      by_cases h2 : k = k'
      · subst h2
        rcases (by simpa [aset] using h : x = k ∨ x ∈ rest.map Prod.fst) with h3 | h3
        · exact Or.inr h3
        · exact Or.inl (by simp [h3])
      · rcases (by simpa [aset, h2] using h : x = k' ∨ x ∈ (aset k v rest).map Prod.fst) with h3 | h3
        · exact Or.inl (by simp [h3])
        · rcases ih h3 with h4 | h4
          · exact Or.inl (by simp [h4])
          · exact Or.inr h4

theorem nodup_keys_aset {α : Type} (k : String) (v : α)
    {l : List (String × α)} (h : (l.map Prod.fst).Nodup) :
    ((aset k v l).map Prod.fst).Nodup := by
  induction l with
  | nil => simp [aset]
  | cons p rest ih =>
      rcases p with ⟨k', v'⟩
      rw [List.map_cons, List.nodup_cons] at h
      obtain ⟨hk', hrest⟩ := h
      by_cases h2 : k = k'
      · subst h2
        have step : aset k v ((k, v') :: rest) = (k, v) :: rest := by simp [aset]
        rw [step, List.map_cons, List.nodup_cons]
        exact ⟨hk', hrest⟩
      · have step : aset k v ((k', v') :: rest) = (k', v') :: aset k v rest := by
          simp [aset, h2]
        rw [step, List.map_cons, List.nodup_cons]
        constructor
        · intro hmem
          rcases mem_keys_aset v hmem with h3 | h3
          · exact hk' h3
          · exact h2 h3.symm
        · exact ih hrest

theorem nodup_keys_append_one {α : Type} {l : List (String × α)} {k : String}
    (v : α) (h : (l.map Prod.fst).Nodup) (hk : k ∉ l.map Prod.fst) :
    ((l ++ [(k, v)]).map Prod.fst).Nodup := by
  simp only [List.map_append, List.map_cons, List.map_nil]
  rw [List.nodup_append]
  exact ⟨h, List.nodup_singleton k, by
    intro x hx hx2
    simp only [List.mem_singleton] at hx2
    subst hx2
    exact hk hx⟩

theorem foldl_inv {α β : Type} {P : β → Prop} {f : β → α → β}
    (h : ∀ b a, P b → P (f b a)) :
    ∀ (l : List α) (b : β), P b → P (l.foldl f b) := by
  intro l
  induction l with
  | nil => intro b hb; simpa using hb
  | cons a rest ih => intro b hb; simpa using ih (f b a) (h b a hb)

/-! ### Deduplication invariant of the assembler -/

namespace BuildGraph

/-- The graph's node identities are duplicate-free. -/
def NK (g : Graph) : Prop := (g.nodes.map Prod.fst).Nodup

theorem ensure_node_id (g : Graph) (reg : Registry) (entry : FuncEntry)
    (kind : String) (owner : Option String) (ext : Bool) :
    (ensure_function_node g reg entry kind owner ext).2.2 =
      "function::" ++ effQualified entry := rfl

theorem ensure_nodes_fresh (g : Graph) (reg : Registry) (entry : FuncEntry)
    (kind : String) (owner : Option String) (ext : Bool)
    (h : alookup ("function::" ++ effQualified entry) g.nodes = none) :
    (ensure_function_node g reg entry kind owner ext).1.nodes =
      g.nodes ++ [("function::" ++ effQualified entry, mkFreshAttrs entry kind owner ext)] := by
  simp [ensure_function_node, h]

theorem ensure_nodes_reuse (g : Graph) (reg : Registry) (entry : FuncEntry)
    (kind : String) (owner : Option String) (ext : Bool) (attrs : NodeAttrs)
    (h : alookup ("function::" ++ effQualified entry) g.nodes = some attrs) :
    (ensure_function_node g reg entry kind owner ext).1.nodes =
      aset ("function::" ++ effQualified entry) (updatedAttrs entry owner attrs) g.nodes := by
  simp [ensure_function_node, h]

theorem nk_ensure (g : Graph) (reg : Registry) (entry : FuncEntry)
    (kind : String) (owner : Option String) (ext : Bool) (h : NK g) :
    NK (ensure_function_node g reg entry kind owner ext).1 := by
  unfold NK
  cases hb : alookup ("function::" ++ effQualified entry) g.nodes with
  | none =>
      rw [ensure_nodes_fresh g reg entry kind owner ext hb]
      exact nodup_keys_append_one _ h (not_mem_keys_of_alookup_none hb)
  | some attrs =>
      rw [ensure_nodes_reuse g reg entry kind owner ext attrs hb]
      exact nodup_keys_aset _ _ h

theorem nk_add_class (g : Graph) (class_id class_name : String) (h : NK g) :
    NK (add_class_node g class_id class_name) := by
  unfold NK add_class_node
  cases hb : alookup class_id g.nodes with
  | none =>
      simp only [hb]
      exact nodup_keys_append_one _ h (not_mem_keys_of_alookup_none hb)
  | some attrs =>
      simp only [hb]
      exact nodup_keys_aset _ _ h

theorem add_edge_nx_nodes (g : Graph) (s t ty : String) :
    (add_edge_nx g s t ty).nodes = g.nodes := by
  unfold add_edge_nx
  split <;> rfl

theorem nk_processCalls (caller_id : String) (acc : Graph × Registry)
    (calls : List CallEntry) (h : NK acc.1) :
    NK (processCalls caller_id acc calls).1 := by
  unfold processCalls
  refine foldl_inv (P := fun b : Graph × Registry => NK b.1) ?_ calls acc h
  intro b call hb
  dsimp only
  cases hf : truthyStrOpt (call.qualified.bind (fun q => alookup q b.2)) with
  | some cid =>
      simp only []
      split
      · exact hb
      · exact hb
  | none =>
      have hens1 := nk_ensure b.1 b.2 (synthEntry call) "external_function" none
        (call.external.getD true) hb
      have hens2 := nk_ensure b.1 b.2 (synthEntry call) "function" none
        (call.external.getD true) hb
      split_ifs <;> first | exact hens1 | exact hens2

theorem nk_processClassNodes (acc : Graph × Registry) (c : ClassEntry)
    (h : NK acc.1) : NK (processClassNodes acc c).1 := by
  unfold processClassNodes
  refine foldl_inv (P := fun b : Graph × Registry => NK b.1) ?_ c.methods _
    (nk_add_class acc.1 _ _ h)
  intro b m hb
  have h2 := nk_ensure b.1 b.2 m "method" (some (c.name.getD "<anonymous>")) false hb
  unfold NK
  rw [add_edge_nx_nodes]
  exact h2

theorem nk_build_graph (data : Summary) : NK (build_graph data).1 := by
  unfold build_graph
  have base : NK (⟨[], []⟩ : Graph) := by simp [NK]
  have h1 : NK ((data.classes.foldl processClassNodes (⟨⟨[], []⟩, []⟩ : Graph × Registry)).1) :=
    foldl_inv (P := fun b : Graph × Registry => NK b.1)
      (fun b c hb => nk_processClassNodes b c hb) data.classes _ base
  have h2 : NK ((data.free_functions.foldl
      (fun acc f =>
        let r := ensure_function_node acc.1 acc.2 f "function" none false
        (r.1, r.2.1))
      (data.classes.foldl processClassNodes (⟨⟨[], []⟩, []⟩ : Graph × Registry))).1) :=
    foldl_inv (P := fun b : Graph × Registry => NK b.1)
      (fun b f hb => nk_ensure b.1 b.2 f "function" none false hb)
      data.free_functions _ h1
  have h3 : ∀ (cls : List ClassEntry) (acc : Graph × Registry), NK acc.1 →
      NK ((cls.foldl
        (fun acc class_entry =>
          class_entry.methods.foldl
            (fun accM method =>
              match truthyStrOpt (method.qualified.bind (fun q => alookup q accM.2)) with
              | none => accM
              | some caller_id => processCalls caller_id accM method.calls)
            acc)
        acc).1) := by
    intro cls
    refine fun acc hacc => foldl_inv (P := fun b : Graph × Registry => NK b.1) ?_ cls acc hacc
    intro b c hb
    refine foldl_inv (P := fun b2 : Graph × Registry => NK b2.1) ?_ c.methods b hb
    intro b2 m hb2
    cases hm : truthyStrOpt (m.qualified.bind (fun q => alookup q b2.2)) with
    | none => simpa [hm] using hb2
    | some caller_id => simpa [hm] using nk_processCalls caller_id b2 m.calls hb2
  refine foldl_inv (P := fun b : Graph × Registry => NK b.1) ?_ data.free_functions _ (h3 data.classes _ h2)
  intro b f hb
  cases hm : truthyStrOpt (f.qualified.bind (fun q => alookup q b.2)) with
  | none => simpa [hm] using hb
  | some caller_id => simpa [hm] using nk_processCalls caller_id b f.calls hb

end BuildGraph

/-! ### Claims about the assembled graph (C1, C3, C5) -/

theorem string_append_left_cancel {a b : String} (p : String)
    (h : p ++ a = p ++ b) : a = b := by
  have h2 := congrArg String.data h
  rw [String.data_append, String.data_append] at h2
  exact String.ext (List.append_cancel_left h2)

/-- C1 (counterexample): on the Scenario A input the assembled graph has no
node whose identity carries a `method::` or `external_function::` kind tag;
the method node's identity is `function::Calc::add` instead. -/
theorem c1_kind_tag_counterexample :
    "method::Calc::add" ∉ BuildGraph.nodeIds (BuildGraph.build_graph scenarioA).1
    ∧ "external_function::std::max" ∉ BuildGraph.nodeIds (BuildGraph.build_graph scenarioA).1
    ∧ "function::Calc::add" ∈ BuildGraph.nodeIds (BuildGraph.build_graph scenarioA).1 := by
  decide

/-- C1 (amended): `ensure_function_node` derives every function-like node
identity as `"function::" ++ qualified`, whatever the kind; on Scenario A
the graph therefore has nodes `class::Calc`, `function::Calc::add` (type
`method`), `function::clamp` (type `function`), `function::std::max` (type
`external_function`) and the member/calls edges between those identities. -/
theorem c1_scenarioA_assembly :
    (∀ (g : BuildGraph.Graph) (reg : BuildGraph.Registry) (entry : FuncEntry)
        (kind : String) (owner : Option String) (ext : Bool),
      (BuildGraph.ensure_function_node g reg entry kind owner ext).2.2 =
        "function::" ++ BuildGraph.effQualified entry)
    ∧ BuildGraph.nodeTypes (BuildGraph.build_graph scenarioA).1 =
        [("class::Calc", "class"), ("function::Calc::add", "method"),
         ("function::clamp", "function"), ("function::std::max", "external_function")]
    ∧ (BuildGraph.build_graph scenarioA).1.edges =
        [("class::Calc", "function::Calc::add", "member"),
         ("function::Calc::add", "function::clamp", "calls"),
         ("function::Calc::add", "function::std::max", "calls")] := by
  refine ⟨fun g reg entry kind owner ext => rfl, by decide, by decide⟩

/-- C3 (counterexample): the two overloads `Calc::add(int)` and
`Calc::add(double)` are distinct Symbols (distinct USRs) with the same
qualified name, and the assembler collapses them into the single node
`function::Calc::add`: the graph of their extraction has two nodes, not
three. -/
theorem c3_overload_collapse_counterexample :
    addIntData.usr ≠ addDblData.usr
    ∧ qnData addIntData = qnData addDblData
    ∧ (ExtractData.write_json_summary "proj" overloadState.classes
        overloadState.free_functions overloadState.function_data).map
        (fun s => BuildGraph.nodeIds (BuildGraph.build_graph s).1)
      = some ["class::Calc", "function::Calc::add"] := by
  decide

/-- C3 (amended): the assembler's node identity is a function of the
effective qualified name alone — two entries receive the same node identity
exactly when their effective qualified names coincide, so distinct
declarations sharing a qualified name (overloads) collapse to one node. -/
theorem c3_node_identity_by_qualified_name :
    ∀ (g1 g2 : BuildGraph.Graph) (r1 r2 : BuildGraph.Registry)
      (e1 e2 : FuncEntry) (k1 k2 : String) (o1 o2 : Option String) (x1 x2 : Bool),
      (BuildGraph.ensure_function_node g1 r1 e1 k1 o1 x1).2.2 =
        (BuildGraph.ensure_function_node g2 r2 e2 k2 o2 x2).2.2
      ↔ BuildGraph.effQualified e1 = BuildGraph.effQualified e2 := by
  intro g1 g2 r1 r2 e1 e2 k1 k2 o1 o2 x1 x2
  rw [BuildGraph.ensure_node_id, BuildGraph.ensure_node_id]
  constructor
  · exact fun h => string_append_left_cancel "function::" h
  · intro h
    rw [h]

/-- C5: the assembled graph never contains two nodes with the same
identity, and on Scenario B the two call sites referencing the external
name `log` yield exactly one `external_function` node with two `calls`
edges from the two distinct callers. -/
theorem c5_external_dedup :
    (∀ data : Summary, (BuildGraph.nodeIds (BuildGraph.build_graph data).1).Nodup)
    ∧ BuildGraph.nodeTypes (BuildGraph.build_graph scenarioB).1 =
        [("function::f", "function"), ("function::g", "function"),
         ("function::log", "external_function")]
    ∧ (BuildGraph.build_graph scenarioB).1.edges =
        [("function::f", "function::log", "calls"),
         ("function::g", "function::log", "calls")]
    ∧ (BuildGraph.nodeIds (BuildGraph.build_graph scenarioB).1).count "function::log" = 1 := by
  exact ⟨fun data => BuildGraph.nk_build_graph data, by decide, by decide, by decide⟩

/-! ### Claim C8: unsupported output format -/

/-- C8 (counterexample): with the unsupported format `xml` configured, the
run does fail, but only after the analysis has been loaded and the graph
assembled — work is attempted before the format is rejected. -/
theorem c8_work_before_rejection_counterexample :
    BuildGraph.main true scenarioA "xml" true true true =
      ([BuildGraph.Effect.loadAnalysis, BuildGraph.Effect.assemble],
       some "Unsupported format configured: xml")
    ∧ BuildGraph.Effect.loadAnalysis ∈ (BuildGraph.main true scenarioA "xml" true true true).1
    ∧ BuildGraph.Effect.assemble ∈ (BuildGraph.main true scenarioA "xml" true true true).1 := by
  decide

/-- C8 (amended): an unsupported configured format makes `main` fail with a
reported error after loading the analysis and assembling the graph but
before any output is written, exported, or rendered. -/
theorem c8_unsupported_format_fatal :
    ∀ (data : Summary) (fmt : String) (n r1 r2 : Bool),
      BuildGraph.valid_formats.contains (pyLower fmt) = false →
      BuildGraph.main true data fmt n r1 r2 =
        ([BuildGraph.Effect.loadAnalysis, BuildGraph.Effect.assemble],
         some ("Unsupported format configured: " ++ fmt)) := by
  intro data fmt n r1 r2 h
  unfold BuildGraph.main
  rw [if_neg (by decide : ¬ ((!true : Bool) = true))]
  rw [if_pos (by rw [h]; rfl : (!BuildGraph.valid_formats.contains (pyLower fmt)) = true)]

/-- Witness for C8's amended theorem at the concrete format `xml`. -/
theorem c8_unsupported_format_fatal_witness :
    BuildGraph.valid_formats.contains (pyLower "xml") = false
    ∧ BuildGraph.main true scenarioA "xml" true true true =
        ([BuildGraph.Effect.loadAnalysis, BuildGraph.Effect.assemble],
         some ("Unsupported format configured: " ++ "xml")) :=
  ⟨by decide, c8_unsupported_format_fatal scenarioA "xml" true true true (by decide)⟩

/-! ### Claim C2: gating of call recording -/

/-- C2 (counterexample): a call expression whose own location fails the
membership predicate (it sits in `lib/other.h`, the predicate accepts only
`calc.cpp`) still produces a call fact, because `visit` never evaluates the
predicate on call expressions. -/
theorem c2_membership_counterexample :
    calcOnly headerCallData = false
    ∧ ExtractData.visit "." calcOnly (Cur.mk headerCallData CurList.nil)
        (some "u-run") runState
      = ⟨[], ["u-run"],
         [("u-run", ⟨"run", "run", "calc.cpp", 1, 5, [(none, "helper()")], none⟩)]⟩ := by
  decide

/-- C2 (amended): on a call-expression node a call fact is recorded exactly
when an enclosing function context is active (truthy) and that caller USR is
present in `function_data` (and the computed callee name is nonempty); the
node's own source location and the membership predicate are not consulted —
the result is the same for every predicate `p`. -/
theorem c2_call_gating (root : String) (p : CurData → Bool) (d : CurData)
    (cur : Option String) (st : ExtractData.EState)
    (hk : d.kind = CKind.call_expr) :
    ExtractData.visit root p (Cur.mk d CurList.nil) cur st =
      match cur with
      | some u =>
          if !u.isEmpty && (alookup u st.function_data).isSome then
            (if ((ExtractData.calleeOf d).2).isEmpty then st
             else ExtractData.add_call u (ExtractData.calleeOf d) st)
          else st
      | none => st := by
  obtain ⟨k, sp, dn, u2, idf, lf, ll, es, ee, bc, rc, ref, anc⟩ := d
  simp only at hk
  subst hk
  cases cur with
  | none => rfl
  | some u => rfl

/-! ### Claim C4: description first-write-wins -/

namespace ExtractData

theorem gd_setdefault (n : String) (st : EState) (u : String) :
    getDescription (setdefaultClass n st) u = getDescription st u := by
  unfold setdefaultClass
  cases alookup n st.classes <;> rfl

theorem gd_addClassMember (n usr : String) (st : EState) (u : String) :
    getDescription (addClassMember n usr st) u = getDescription st u := by
  unfold addClassMember
  rcases alookup n st.classes with _ | members
  · rfl
  · dsimp only
    split <;> rfl

theorem gd_addFree (usr : String) (st : EState) (u : String) :
    getDescription (addFree usr st) u = getDescription st u := by
  unfold addFree
  split <;> rfl

theorem gd_add_call (w : String) (c : Option String × String) (st : EState)
    (u : String) : getDescription (add_call w c st) u = getDescription st u := by
  unfold add_call
  rcases hfd : alookup w st.function_data with _ | info
  · rfl
  · dsimp only
    split
    · rfl
    · unfold getDescription
      by_cases hu : u = w
      · subst hu
        rw [alookup_aset_self, hfd]
      · rw [alookup_aset_ne hu]

theorem gd_callStep (d : CurData) (cur : Option String) (st : EState)
    (u : String) : getDescription (callStep d cur st) u = getDescription st u := by
  unfold callStep
  split
  · dsimp only
    split
    · rfl
    · exact gd_add_call _ _ st u
  · rfl

theorem gd_record (root : String) (d : CurData) (st : EState) (u : String)
    (h : pyTruthyOpt (getDescription st u) = true) :
    getDescription (record_function root d st).2 u = getDescription st u := by
  unfold record_function
  cases hlf : d.locFile with
  | none => rfl
  | some f =>
      by_cases hu : d.usr.isEmpty
      · simp [hu]
      · simp only [hu, Bool.false_eq_true, if_false]
        cases hfd : alookup d.usr st.function_data with
        | none =>
            simp only []
            unfold getDescription
            rw [alookup_append]
            cases hlu : alookup u st.function_data with
            | none =>
                rw [getDescription, hlu] at h
                simp [pyTruthyOpt] at h
            | some i => simp
        | some info =>
            by_cases hdesc : pyTruthyOpt info.description
            · simp [hdesc]
            · by_cases hct : pyTruthyOpt (extract_comment_text d.briefComment d.rawComment)
              · have hne : u ≠ d.usr := by
                  intro he
                  rw [he, getDescription, hfd] at h
                  rw [h] at hdesc
                  exact hdesc rfl
                simp only [hdesc, Bool.false_eq_true, if_false, hct, if_true]
                unfold getDescription
                rw [alookup_aset_ne hne]
              · simp [hdesc, hct]

theorem gd_visitStep (root : String) (p : CurData → Bool) (d : CurData)
    (cur : Option String) (st : EState) (u : String)
    (h : pyTruthyOpt (getDescription st u) = true) :
    getDescription (visitStep root p d cur st).2 u = getDescription st u := by
  unfold visitStep
  set st1 := if d.kind == CKind.class_decl && d.is_definition && p d then
    setdefaultClass (qnData d) st else st with hst1
  have h1 : getDescription st1 u = getDescription st u := by
    rw [hst1]
    split
    · exact gd_setdefault _ st u
    · rfl
  have h1t : pyTruthyOpt (getDescription st1 u) = true := by rw [h1]; exact h
  split
  · dsimp only
    rcases hrec : record_function root d st1 with ⟨usr?, st2⟩
    have h2 : getDescription st2 u = getDescription st1 u := by
      have h3 := gd_record root d st1 u h1t
      rw [hrec] at h3
      exact h3
    cases usr? with
    | none =>
        dsimp only
        rw [h2, h1]
    | some usr =>
        dsimp only
        cases d.ancestors with
        | nil =>
            rw [gd_addFree, h2, h1]
        | cons parent rest =>
            dsimp only
            split
            · rw [gd_addClassMember, h2, h1]
            · rw [gd_addFree, h2, h1]
  · rw [gd_callStep, h1]

mutual
theorem gd_visit (root : String) (p : CurData → Bool) :
    ∀ (c : Cur) (cur : Option String) (st : EState) (u : String),
      pyTruthyOpt (getDescription st u) = true →
      getDescription (visit root p c cur st) u = getDescription st u
  | Cur.mk d cs, cur, st, u, h => by
      have h1 := gd_visitStep root p d cur st u h
      have h2 := gd_visitList root p cs (visitStep root p d cur st).1
        (visitStep root p d cur st).2 u (by rw [h1]; exact h)
      rw [show visit root p (Cur.mk d cs) cur st =
        visitList root p cs (visitStep root p d cur st).1 (visitStep root p d cur st).2 from rfl]
      rw [h2, h1]

theorem gd_visitList (root : String) (p : CurData → Bool) :
    ∀ (cl : CurList) (cur : Option String) (st : EState) (u : String),
      pyTruthyOpt (getDescription st u) = true →
      getDescription (visitList root p cl cur st) u = getDescription st u
  | CurList.nil, cur, st, u, h => rfl
  | CurList.cons c rest, cur, st, u, h => by
      have h1 := gd_visit root p c cur st u h
      have h2 := gd_visitList root p rest cur (visit root p c cur st) u
        (by rw [h1]; exact h)
      rw [show visitList root p (CurList.cons c rest) cur st =
        visitList root p rest cur (visit root p c cur st) from rfl]
      rw [h2, h1]
end

theorem record_backfill (root : String) (d : CurData) (st : EState)
    (info : FuncInfo) (hlf : d.locFile.isSome = true)
    (hu : d.usr.isEmpty = false)
    (hfd : alookup d.usr st.function_data = some info)
    (hdesc : pyTruthyOpt info.description = false)
    (hct : pyTruthyOpt (extract_comment_text d.briefComment d.rawComment) = true) :
    getDescription (record_function root d st).2 d.usr =
      extract_comment_text d.briefComment d.rawComment := by
  unfold record_function
  cases hlf2 : d.locFile with
  | none => rw [hlf2] at hlf; simp at hlf
  | some f =>
      simp only [hu, Bool.false_eq_true, if_false, hfd, hdesc, hct, if_true]
      unfold getDescription
      rw [alookup_aset_self]

end ExtractData

/-- C4: once a Symbol's description is truthy it is never changed by any
further traversal (first write wins), and a later sighting of an already
recorded USR whose description is still missing backfills it from the new
sighting's comment. -/
theorem c4_description_first_write_wins :
    (∀ (root : String) (p : CurData → Bool) (c : Cur) (cur : Option String)
        (st : ExtractData.EState) (u : String),
      pyTruthyOpt (ExtractData.getDescription st u) = true →
      ExtractData.getDescription (ExtractData.visit root p c cur st) u =
        ExtractData.getDescription st u)
    ∧ (∀ (root : String) (d : CurData) (st : ExtractData.EState)
        (info : ExtractData.FuncInfo),
      d.locFile.isSome = true → d.usr.isEmpty = false →
      alookup d.usr st.function_data = some info →
      pyTruthyOpt info.description = false →
      pyTruthyOpt (extract_comment_text d.briefComment d.rawComment) = true →
      ExtractData.getDescription (ExtractData.record_function root d st).2 d.usr =
        extract_comment_text d.briefComment d.rawComment) :=
  ⟨fun root p c cur st u h => ExtractData.gd_visit root p c cur st u h,
   fun root d st info h1 h2 h3 h4 h5 =>
     ExtractData.record_backfill root d st info h1 h2 h3 h4 h5⟩

/-- Witness for C4 on Scenario C: after the two sightings the description
is the one from the second visit, a further comment-free revisit leaves it
unchanged, and the backfill equation holds at the second sighting. -/
theorem c4_description_first_write_wins_witness :
    ExtractData.getDescription scenarioCState "u-add" = some "Adds two numbers."
    ∧ ExtractData.getDescription
        (ExtractData.visit "proj" (fun _ => true) (Cur.mk addNoCommentData CurList.nil)
          none scenarioCState) "u-add"
      = ExtractData.getDescription scenarioCState "u-add"
    ∧ ExtractData.getDescription
        (ExtractData.record_function "proj" addCommentedData scenarioCMid).2 "u-add"
      = extract_comment_text addCommentedData.briefComment addCommentedData.rawComment :=
  ⟨by decide,
   c4_description_first_write_wins.1 "proj" (fun _ => true)
     (Cur.mk addNoCommentData CurList.nil) none scenarioCState "u-add" (by decide),
   c4_description_first_write_wins.2 "proj" addCommentedData scenarioCMid
     ⟨"Calc::add", "add", "calc.cpp", 4, 4, [], none⟩
     (by decide) (by decide) (by decide) (by decide) (by decide)⟩

/-! ### Claim C9: constructor and destructor handling -/

namespace MainPy

theorem fd_setdefault (n : String) (st : MState) :
    (setdefaultClass n st).function_data = st.function_data := by
  unfold setdefaultClass
  split <;> rfl

theorem fd_addClassMember (n u2 : String) (st : MState) :
    (addClassMember n u2 st).function_data = st.function_data := by
  unfold addClassMember
  split
  · split <;> rfl
  · rfl

theorem fd_addFree (u2 : String) (st : MState) :
    (addFree u2 st).function_data = st.function_data := by
  unfold addFree
  split <;> rfl

theorem free_setdefault (n : String) (st : MState) :
    (setdefaultClass n st).free_functions = st.free_functions := by
  unfold setdefaultClass
  split <;> rfl

theorem free_addClassMember (n u2 : String) (st : MState) :
    (addClassMember n u2 st).free_functions = st.free_functions := by
  unfold addClassMember
  split
  · split <;> rfl
  · rfl

theorem free_add_call (w : String) (c : Option String × String) (st : MState) :
    (add_call w c st).free_functions = st.free_functions := by
  unfold add_call
  split
  · split <;> rfl
  · rfl

theorem free_record (root : String) (d : CurData) (st : MState) :
    (record_function root d st).2.free_functions = st.free_functions := by
  unfold record_function
  split
  · rfl
  · split
    · rfl
    · split <;> rfl

theorem classes_addFree (u2 : String) (st : MState) :
    (addFree u2 st).classes = st.classes := by
  unfold addFree
  split <;> rfl

theorem classes_add_call (w : String) (c : Option String × String) (st : MState) :
    (add_call w c st).classes = st.classes := by
  unfold add_call
  split
  · split <;> rfl
  · rfl

theorem classes_record (root : String) (d : CurData) (st : MState) :
    (record_function root d st).2.classes = st.classes := by
  unfold record_function
  split
  · rfl
  · split
    · rfl
    · split <;> rfl

theorem contains_append_right {l m : List String} {x : String}
    (h : l.contains x = true) : (l ++ m).contains x = true :=
  List.elem_eq_true_of_mem (List.mem_append_left m (List.mem_of_elem_eq_true h))

theorem contains_append_self (l : List String) (x : String) :
    (l ++ [x]).contains x = true := by
  simp

theorem lookup_isSome_record (root : String) (d : CurData) (st : MState)
    (u : String) (h : (alookup u st.function_data).isSome = true) :
    (alookup u (record_function root d st).2.function_data).isSome = true := by
  unfold record_function
  split
  · exact h
  · split
    · exact h
    · split
      · dsimp only
        rw [alookup_append]
        cases hlu : alookup u st.function_data with
        | none => rw [hlu] at h; simp at h
        | some i => simp
      · exact h

theorem lookup_isSome_add_call (w : String) (c : Option String × String)
    (st : MState) (u : String) (h : (alookup u st.function_data).isSome = true) :
    (alookup u (add_call w c st).function_data).isSome = true := by
  unfold add_call
  split
  · split
    · exact h
    · dsimp only
      by_cases hu : u = w
      · subst hu
        rw [alookup_aset_self]
        rfl
      · rw [alookup_aset_ne hu]
        exact h
  · exact h

theorem memberRecorded_setdefault (n cls usr : String) (st : MState)
    (h : memberRecorded st cls usr = true) :
    memberRecorded (setdefaultClass n st) cls usr = true := by
  unfold setdefaultClass
  split
  · exact h
  · unfold memberRecorded at h ⊢
    dsimp only
    rw [alookup_append]
    cases hcls : alookup cls st.classes with
    | none => rw [hcls] at h; simp at h
    | some ms =>
        rw [hcls] at h
        simpa using h

theorem memberRecorded_addClassMember (n u2 cls usr : String) (st : MState)
    (h : memberRecorded st cls usr = true) :
    memberRecorded (addClassMember n u2 st) cls usr = true := by
  unfold addClassMember
  cases hn : alookup n st.classes with
  | none =>
      dsimp only
      unfold memberRecorded at h ⊢
      dsimp only
      rw [alookup_append]
      cases hcls : alookup cls st.classes with
      | none => rw [hcls] at h; simp at h
      | some ms =>
          rw [hcls] at h
          simpa using h
  | some members =>
      dsimp only
      split
      · exact h
      · unfold memberRecorded at h ⊢
        dsimp only
        by_cases hceq : cls = n
        · subst hceq
          rw [alookup_aset_self]
          rw [hn] at h
          exact contains_append_right h
        · rw [alookup_aset_ne hceq]
          exact h

theorem memberRecorded_addFree (u2 cls usr : String) (st : MState)
    (h : memberRecorded st cls usr = true) :
    memberRecorded (addFree u2 st) cls usr = true := by
  unfold memberRecorded at h ⊢
  rw [classes_addFree]
  exact h

theorem memberRecorded_record (root : String) (d : CurData) (st : MState)
    (cls usr : String) (h : memberRecorded st cls usr = true) :
    memberRecorded (record_function root d st).2 cls usr = true := by
  unfold memberRecorded at h ⊢
  rw [classes_record]
  exact h

theorem memberRecorded_add_call (w : String) (c : Option String × String)
    (st : MState) (cls usr : String) (h : memberRecorded st cls usr = true) :
    memberRecorded (add_call w c st) cls usr = true := by
  unfold memberRecorded at h ⊢
  rw [classes_add_call]
  exact h

theorem free_mono_addFree (u2 usr : String) (st : MState)
    (h : st.free_functions.contains usr = true) :
    (addFree u2 st).free_functions.contains usr = true := by
  unfold addFree
  split
  · exact h
  · exact contains_append_right h

theorem registered_step (root : String) (p : CurData → Bool) (d : CurData)
    (cur : Option String) (st : MState) (usr : String) (target : Option String)
    (h : registeredAs st usr target) :
    registeredAs (visitStep root p d cur st).2 usr target := by
  obtain ⟨h1, h2⟩ := h
  unfold visitStep
  set st1 := if d.kind == CKind.class_decl && d.is_definition && p d then
    setdefaultClass (qnData d) st else st with hst1
  have hst1reg : registeredAs st1 usr target := by
    rw [hst1]
    split
    · refine ⟨by rw [fd_setdefault]; exact h1, ?_⟩
      cases target with
      | some cls => exact memberRecorded_setdefault _ cls usr st h2
      | none => rw [free_setdefault]; exact h2
    · exact ⟨h1, h2⟩
  obtain ⟨h1b, h2b⟩ := hst1reg
  split
  · dsimp only
    rcases hrec : record_function root d st1 with ⟨usr?, st2⟩
    have hrecReg : registeredAs st2 usr target := by
      refine ⟨?_, ?_⟩
      · have := lookup_isSome_record root d st1 usr h1b
        rw [hrec] at this
        exact this
      · cases target with
        | some cls =>
            have := memberRecorded_record root d st1 cls usr h2b
            rw [hrec] at this
            exact this
        | none =>
            have := free_record root d st1
            rw [hrec] at this
            dsimp only at this
            rw [this]
            exact h2b
    obtain ⟨h1c, h2c⟩ := hrecReg
    cases usr? with
    | none => exact ⟨h1c, h2c⟩
    | some u2 =>
        dsimp only
        cases d.ancestors with
        | nil =>
            refine ⟨by rw [fd_addFree]; exact h1c, ?_⟩
            cases target with
            | some cls => exact memberRecorded_addFree u2 cls usr st2 h2c
            | none => exact free_mono_addFree u2 usr st2 h2c
        | cons parent rest =>
            dsimp only
            split
            · refine ⟨by rw [fd_addClassMember]; exact h1c, ?_⟩
              cases target with
              | some cls => exact memberRecorded_addClassMember _ u2 cls usr st2 h2c
              | none => rw [free_addClassMember]; exact h2c
            · refine ⟨by rw [fd_addFree]; exact h1c, ?_⟩
              cases target with
              | some cls => exact memberRecorded_addFree u2 cls usr st2 h2c
              | none => exact free_mono_addFree u2 usr st2 h2c
  · dsimp only
    unfold callStep
    split
    · dsimp only
      split
      · exact ⟨h1b, h2b⟩
      · refine ⟨lookup_isSome_add_call _ _ st1 usr h1b, ?_⟩
        cases target with
        | some cls => exact memberRecorded_add_call _ _ st1 cls usr h2b
        | none => rw [free_add_call]; exact h2b
    · exact ⟨h1b, h2b⟩

mutual
theorem registered_visit (root : String) (p : CurData → Bool) (usr : String)
    (target : Option String) :
    ∀ (c : Cur) (cur : Option String) (st : MState),
      registeredAs st usr target →
      registeredAs (visit root p c cur st) usr target
  | Cur.mk d cs, cur, st, h => by
      have h1 := registered_step root p d cur st usr target h
      exact registered_visitList root p usr target cs
        (visitStep root p d cur st).1 (visitStep root p d cur st).2 h1

theorem registered_visitList (root : String) (p : CurData → Bool) (usr : String)
    (target : Option String) :
    ∀ (cl : CurList) (cur : Option String) (st : MState),
      registeredAs st usr target →
      registeredAs (visitList root p cl cur st) usr target
  | CurList.nil, cur, st, h => h
  | CurList.cons c rest, cur, st, h => by
      have h1 := registered_visit root p usr target c cur st h
      exact registered_visitList root p usr target rest cur
        (visit root p c cur st) h1
end

end MainPy

namespace MainPy

theorem addFree_self (u2 : String) (st : MState) :
    (addFree u2 st).free_functions.contains u2 = true := by
  unfold addFree
  split
  · assumption
  · exact contains_append_self st.free_functions u2

theorem addClassMember_self (n u2 : String) (st : MState) :
    memberRecorded (addClassMember n u2 st) n u2 = true := by
  unfold addClassMember
  cases hn : alookup n st.classes with
  | none =>
      unfold memberRecorded
      dsimp only
      rw [alookup_append, hn]
      simp [alookup]
  | some members =>
      dsimp only
      split
      · unfold memberRecorded
        rw [hn]
        assumption
      · unfold memberRecorded
        dsimp only
        rw [alookup_aset_self]
        exact contains_append_self members u2

theorem classify_registered (st2 : MState) (d : CurData)
    (hfd : (alookup d.usr st2.function_data).isSome = true) :
    registeredAs
      (match d.ancestors with
       | parent :: rest =>
           if parent.kind == CKind.class_decl && !parent.spelling.isEmpty then
             addClassMember (qnScope parent rest) d.usr st2
           else addFree d.usr st2
       | [] => addFree d.usr st2)
      d.usr (classTargetOf d) := by
  unfold classTargetOf
  cases hanc : d.ancestors with
  | nil =>
      exact ⟨by rw [fd_addFree]; exact hfd, addFree_self d.usr st2⟩
  | cons parent rest =>
      dsimp only
      split
      · exact ⟨by rw [fd_addClassMember]; exact hfd, addClassMember_self _ d.usr st2⟩
      · exact ⟨by rw [fd_addFree]; exact hfd, addFree_self d.usr st2⟩

end MainPy

/-- C9 (counterexample): in `extract_data.py` the constructor kind is not
in `function_kinds`, so visiting an in-scope constructor definition with a
USR leaves the extractor state untouched — nothing is registered and no
function context is opened. -/
theorem c9_constructor_not_registered_counterexample :
    ExtractData.function_kinds CKind.constructor = false
    ∧ ExtractData.function_kinds CKind.destructor = false
    ∧ ctorData.is_definition = true
    ∧ ctorData.usr.isEmpty = false
    ∧ ctorData.locFile = some "proj/calc.cpp"
    ∧ ExtractData.visit "proj" (fun _ => true) (Cur.mk ctorData CurList.nil)
        none ExtractData.emptyEState = ExtractData.emptyEState := by
  decide

/-- C9 (amended): in `main.py`, whose `function_kinds` includes
`CONSTRUCTOR` and `DESTRUCTOR`, visiting an in-scope constructor or
destructor definition with a usable location and USR registers it exactly
as a function/method: it lands in `function_data`, is classified into its
class's method set (or the free set), the children are traversed with the
new USR as enclosing context, and the registration survives to the end of
the traversal. -/
theorem c9_constructor_registered_in_main :
    ∀ (root : String) (d : CurData) (cs : CurList) (cur : Option String)
      (st : MainPy.MState),
      (d.kind = CKind.constructor ∨ d.kind = CKind.destructor) →
      d.is_definition = true →
      MainPy.in_project root d = true →
      d.usr.isEmpty = false →
      ∃ st3,
        MainPy.visit root (MainPy.in_project root) (Cur.mk d cs) cur st =
          MainPy.visitList root (MainPy.in_project root) cs (some d.usr) st3
        ∧ MainPy.registeredAs st3 d.usr (MainPy.classTargetOf d)
        ∧ MainPy.registeredAs
            (MainPy.visit root (MainPy.in_project root) (Cur.mk d cs) cur st)
            d.usr (MainPy.classTargetOf d) := by
  intro root d cs cur st hk hdef hip hu
  have hkc : (d.kind == CKind.class_decl) = false := by
    rcases hk with h | h <;> rw [h] <;> rfl
  have hkf : MainPy.function_kinds d.kind = true := by
    rcases hk with h | h <;> rw [h] <;> rfl
  obtain ⟨f, hf⟩ : ∃ f, d.locFile = some f := by
    unfold MainPy.in_project at hip
    cases hlf2 : d.locFile with
    | none => rw [hlf2] at hip; exact absurd hip (by simp)
    | some f => exact ⟨f, rfl⟩
  have hstep : ∃ st3,
      MainPy.visitStep root (MainPy.in_project root) d cur st = (some d.usr, st3)
      ∧ MainPy.registeredAs st3 d.usr (MainPy.classTargetOf d) := by
    unfold MainPy.visitStep
    rw [hkc]
    simp only [Bool.false_and, Bool.false_eq_true, if_false]
    rw [hkf, hdef, hip]
    simp only [Bool.true_and, Bool.and_self, if_true]
    unfold MainPy.record_function
    rw [hf]
    simp only [hu, Bool.false_eq_true, if_false]
    cases hfd : alookup d.usr st.function_data with
    | none =>
        dsimp only
        refine ⟨_, rfl, ?_⟩
        refine MainPy.classify_registered _ d ?_
        dsimp only
        rw [alookup_append, hfd]
        simp [alookup]
    | some info =>
        dsimp only
        refine ⟨_, rfl, ?_⟩
        refine MainPy.classify_registered _ d ?_
        rw [hfd]
        rfl
  obtain ⟨st3, hstepEq, hreg⟩ := hstep
  have hVisitEq : MainPy.visit root (MainPy.in_project root) (Cur.mk d cs) cur st =
      MainPy.visitList root (MainPy.in_project root) cs (some d.usr) st3 := by
    rw [show MainPy.visit root (MainPy.in_project root) (Cur.mk d cs) cur st =
      MainPy.visitList root (MainPy.in_project root) cs
        (MainPy.visitStep root (MainPy.in_project root) d cur st).1
        (MainPy.visitStep root (MainPy.in_project root) d cur st).2 from rfl]
    rw [hstepEq]
  refine ⟨st3, hVisitEq, hreg, ?_⟩
  rw [hVisitEq]
  exact MainPy.registered_visitList root (MainPy.in_project root) d.usr
    (MainPy.classTargetOf d) cs (some d.usr) st3 hreg

/-- Witness for C9's amended theorem: the concrete constructor definition
`Calc::Calc` inside `proj` is registered and classified as a method of
`Calc` by `main.py`'s extractor. -/
theorem c9_constructor_registered_in_main_witness :
    (ctorData.kind = CKind.constructor ∨ ctorData.kind = CKind.destructor)
    ∧ ctorData.is_definition = true
    ∧ MainPy.in_project "proj" ctorData = true
    ∧ ctorData.usr.isEmpty = false
    ∧ (∃ st3,
        MainPy.visit "proj" (MainPy.in_project "proj") (Cur.mk ctorData CurList.nil)
          none MainPy.emptyMState =
          MainPy.visitList "proj" (MainPy.in_project "proj") CurList.nil
            (some ctorData.usr) st3
        ∧ MainPy.registeredAs st3 ctorData.usr (MainPy.classTargetOf ctorData)
        ∧ MainPy.registeredAs
            (MainPy.visit "proj" (MainPy.in_project "proj") (Cur.mk ctorData CurList.nil)
              none MainPy.emptyMState)
            ctorData.usr (MainPy.classTargetOf ctorData)) :=
  ⟨Or.inl (by decide), by decide, by decide, by decide,
   c9_constructor_registered_in_main "proj" ctorData CurList.nil none
     MainPy.emptyMState (Or.inl (by decide)) (by decide) (by decide) (by decide)⟩

/-! ### Claim C7: location present iff internal -/

theorem mkCallEntry_location_iff (fd : List (String × ExtractData.FuncInfo))
    (pr : Option String × String) :
    (ExtractData.mkCallEntry fd pr).location.isSome = true
      ↔ (ExtractData.mkCallEntry fd pr).external = some false := by
  unfold ExtractData.mkCallEntry
  dsimp only
  split <;> simp

theorem mkCallEntryM_location_iff (fd : List (String × MainPy.FuncInfo))
    (pr : Option String × String) :
    (MainPy.mkCallEntry fd pr).location.isSome = true
      ↔ (MainPy.mkCallEntry fd pr).external = some false := by
  unfold MainPy.mkCallEntry
  dsimp only
  split <;> simp

theorem calls_of_funcEntry {fd : List (String × ExtractData.FuncInfo)}
    {info : ExtractData.FuncInfo} {ce : CallEntry}
    (h : ce ∈ (ExtractData.funcEntryOf fd info).calls) :
    ∃ pr, ce = ExtractData.mkCallEntry fd pr := by
  unfold ExtractData.funcEntryOf at h
  dsimp only at h
  rcases List.mem_map.mp h with ⟨pr, _, heq⟩
  exact ⟨pr, heq.symm⟩

theorem write_summary_shape {root : String} {cls : List (String × List String)}
    {free : List String} {fd : List (String × ExtractData.FuncInfo)} {s : Summary}
    (h : ExtractData.write_json_summary root cls free fd = some s) :
    s.classes = (sortBy (fun a b => strLe a.1 b.1) cls).map (ExtractData.classEntryOf fd)
    ∧ s.free_functions =
        (sortBy (fun a b => strLe (ExtractData.freeQualifiedOf fd a)
          (ExtractData.freeQualifiedOf fd b)) free).filterMap
          (fun usr => (alookup usr fd).map (ExtractData.funcEntryOf fd)) := by
  unfold ExtractData.write_json_summary at h
  split at h
  · injection h with h2
    rw [← h2]
    exact ⟨rfl, rfl⟩
  · exact absurd h (by simp)

theorem funcEntry_of_mem_classEntry {fd : List (String × ExtractData.FuncInfo)}
    {raw : String × List String} {m : FuncEntry}
    (h : m ∈ (ExtractData.classEntryOf fd raw).methods) :
    ∃ info, m = ExtractData.funcEntryOf fd info := by
  unfold ExtractData.classEntryOf at h
  dsimp only at h
  rcases List.mem_filterMap.mp h with ⟨pr, _, heq⟩
  rcases Option.map_eq_some'.mp heq with ⟨info, _, heq2⟩
  exact ⟨info, heq2.symm⟩

/-- C7: in the serialized interchange record every `calls[]` entry carries
a `location` exactly when its `external` flag is `false` — both at the
level of the entry constructor (in both serializer variants) and for every
entry occurring anywhere in a produced summary. -/
theorem c7_location_iff_internal :
    (∀ (fd : List (String × ExtractData.FuncInfo)) (pr : Option String × String),
      (ExtractData.mkCallEntry fd pr).location.isSome = true
        ↔ (ExtractData.mkCallEntry fd pr).external = some false)
    ∧ (∀ (root : String) (cls : List (String × List String)) (free : List String)
        (fd : List (String × ExtractData.FuncInfo)) (s : Summary),
      ExtractData.write_json_summary root cls free fd = some s →
      ∀ ce ∈ allCallEntries s,
        ce.location.isSome = true ↔ ce.external = some false)
    ∧ (∀ (fd : List (String × MainPy.FuncInfo)) (pr : Option String × String),
      (MainPy.mkCallEntry fd pr).location.isSome = true
        ↔ (MainPy.mkCallEntry fd pr).external = some false) := by
  refine ⟨mkCallEntry_location_iff, ?_, mkCallEntryM_location_iff⟩
  intro root cls free fd s h ce hce
  obtain ⟨hc, hf⟩ := write_summary_shape h
  unfold allCallEntries at hce
  rcases List.mem_append.mp hce with hleft | hright
  · rcases List.mem_flatMap.mp hleft with ⟨c, hcmem, hmc⟩
    rcases List.mem_flatMap.mp hmc with ⟨m, hmmem, hcall⟩
    rw [hc] at hcmem
    rcases List.mem_map.mp hcmem with ⟨raw, _, hceq⟩
    rw [← hceq] at hmmem
    rcases funcEntry_of_mem_classEntry hmmem with ⟨info, hm⟩
    rw [hm] at hcall
    rcases calls_of_funcEntry hcall with ⟨pr, hpr⟩
    rw [hpr]
    exact mkCallEntry_location_iff fd pr
  · rcases List.mem_flatMap.mp hright with ⟨m, hmmem, hcall⟩
    rw [hf] at hmmem
    rcases List.mem_filterMap.mp hmmem with ⟨usr, _, heq⟩
    rcases Option.map_eq_some'.mp heq with ⟨info, _, heq2⟩
    rw [← heq2] at hcall
    rcases calls_of_funcEntry hcall with ⟨pr, hpr⟩
    rw [hpr]
    exact mkCallEntry_location_iff fd pr

/-- Witness for C7 at a concrete summary with one external call entry. -/
theorem c7_location_iff_internal_witness :
    ExtractData.write_json_summary "." [("Calc", ["u1"])] [] [("u1", c6Info)] = some c6Summary
    ∧ ExtractData.mkCallEntry [("u1", c6Info)] (none, "log") ∈ allCallEntries c6Summary
    ∧ ((ExtractData.mkCallEntry [("u1", c6Info)] (none, "log")).location.isSome = true
        ↔ (ExtractData.mkCallEntry [("u1", c6Info)] (none, "log")).external = some false) :=
  ⟨by decide, by decide,
   c7_location_iff_internal.2.1 "." [("Calc", ["u1"])] [] [("u1", c6Info)] c6Summary
     (by decide) (ExtractData.mkCallEntry [("u1", c6Info)] (none, "log")) (by decide)⟩

/-! ### Claim C10: single-line vs line-range locations -/

/-- C10: a freshly created function node copies `location["line"]` into the
`line` attribute (present iff the single-line key is present) and keeps a
truthy `location["file"]`; the extractor's serializer only ever emits the
`start_line`/`end_line` shape with no `line` key, so nodes built from its
records carry a `file` attribute but no `line` attribute — the line range
is dropped (the attribute set has no start/end fields at all). -/
theorem c10_line_attribute :
    (∀ (g : BuildGraph.Graph) (reg : BuildGraph.Registry) (entry : FuncEntry)
        (kind : String) (owner : Option String) (ext : Bool),
      alookup ("function::" ++ BuildGraph.effQualified entry) g.nodes = none →
      (BuildGraph.ensure_function_node g reg entry kind owner ext).1.nodes =
        g.nodes ++ [("function::" ++ BuildGraph.effQualified entry,
          BuildGraph.mkFreshAttrs entry kind owner ext)])
    ∧ (∀ (entry : FuncEntry) (kind : String) (owner : Option String) (ext : Bool),
      (BuildGraph.mkFreshAttrs entry kind owner ext).line =
        ((entry.location.getD emptyLocation).line).map (fun n => toString n))
    ∧ (∀ (entry : FuncEntry) (kind : String) (owner : Option String) (ext : Bool)
        (f : String),
      (entry.location.getD emptyLocation).file = some f → f.isEmpty = false →
      (BuildGraph.mkFreshAttrs entry kind owner ext).file = some f)
    ∧ (∀ (fd : List (String × ExtractData.FuncInfo)) (info : ExtractData.FuncInfo),
      (ExtractData.funcEntryOf fd info).location =
        some ⟨some info.file, none, some info.start_line, some info.end_line⟩) := by
  refine ⟨?_, ?_, ?_, ?_⟩
  · intro g reg entry kind owner ext h
    exact BuildGraph.ensure_nodes_fresh g reg entry kind owner ext h
  · intro entry kind owner ext
    rfl
  · intro entry kind owner ext f h1 h2
    unfold BuildGraph.mkFreshAttrs
    dsimp only
    rw [h1]
    dsimp only
    rw [h2]
    rfl
  · intro fd info
    rfl

/-- Witness for C10 at a concrete serializer-produced entry. -/
theorem c10_line_attribute_witness :
    alookup ("function::" ++ BuildGraph.effQualified (ExtractData.funcEntryOf [] c6Info))
      (⟨[], []⟩ : BuildGraph.Graph).nodes = none
    ∧ (BuildGraph.ensure_function_node ⟨[], []⟩ [] (ExtractData.funcEntryOf [] c6Info)
        "method" none false).1.nodes =
      [("function::Calc::add",
        BuildGraph.mkFreshAttrs (ExtractData.funcEntryOf [] c6Info) "method" none false)]
    ∧ (BuildGraph.mkFreshAttrs (ExtractData.funcEntryOf [] c6Info) "method" none false).line = none
    ∧ (BuildGraph.mkFreshAttrs (ExtractData.funcEntryOf [] c6Info) "method" none false).file =
        some "calc.cpp" := by
  refine ⟨by decide, ?_, ?_, ?_⟩
  · rw [c10_line_attribute.1 ⟨[], []⟩ [] (ExtractData.funcEntryOf [] c6Info)
      "method" none false (by decide)]
    decide
  · rw [c10_line_attribute.2.1 (ExtractData.funcEntryOf [] c6Info) "method" none false]
    decide
  · exact c10_line_attribute.2.2.1 (ExtractData.funcEntryOf [] c6Info) "method" none false
      "calc.cpp" (by decide) (by decide)

/-! ### Claim C6: round trip through the interchange JSON -/

/-- C6: for every set of extracted facts, writing the canonical interchange
JSON tree and reading it back yields a structure on which the assembler
produces the very same graph as on the directly built structure — node and
edge sets agree (here even as equal graphs).  The byte-level
`json.dumps`/`json.load` pair is the Python standard library and operates
on exactly this value tree. -/
theorem c6_round_trip :
    ∀ (root : String) (cls : List (String × List String)) (free : List String)
      (fd : List (String × ExtractData.FuncInfo)) (s : Summary),
      ExtractData.write_json_summary root cls free fd = some s →
      ∃ s2, decSummary (encSummary s) = some s2
        ∧ BuildGraph.build_graph s2 = BuildGraph.build_graph s
        ∧ BuildGraph.nodeIds (BuildGraph.build_graph s2).1 =
            BuildGraph.nodeIds (BuildGraph.build_graph s).1
        ∧ (BuildGraph.build_graph s2).1.edges = (BuildGraph.build_graph s).1.edges :=
  fun _ _ _ _ s _ => ⟨s, decSummary_enc s, rfl, rfl, rfl⟩

/-- Witness for C6 at concrete facts with one class, one method and one
external call. -/
theorem c6_round_trip_witness :
    ExtractData.write_json_summary "." [("Calc", ["u1"])] [] [("u1", c6Info)] = some c6Summary
    ∧ ∃ s2, decSummary (encSummary c6Summary) = some s2
        ∧ BuildGraph.build_graph s2 = BuildGraph.build_graph c6Summary
        ∧ BuildGraph.nodeIds (BuildGraph.build_graph s2).1 =
            BuildGraph.nodeIds (BuildGraph.build_graph c6Summary).1
        ∧ (BuildGraph.build_graph s2).1.edges = (BuildGraph.build_graph c6Summary).1.edges :=
  ⟨by decide, c6_round_trip "." [("Calc", ["u1"])] [] [("u1", c6Info)] c6Summary (by decide)⟩

/-- Witness for C2's amended theorem at the concrete header-located call. -/
theorem c2_call_gating_witness :
    ExtractData.visit "." calcOnly (Cur.mk headerCallData CurList.nil)
      (some "u-run") runState =
      match (some "u-run" : Option String) with
      | some u =>
          if !u.isEmpty && (alookup u runState.function_data).isSome then
            (if ((ExtractData.calleeOf headerCallData).2).isEmpty then runState
             else ExtractData.add_call u (ExtractData.calleeOf headerCallData) runState)
          else runState
      | none => runState :=
  c2_call_gating "." calcOnly headerCallData (some "u-run") runState (by decide)
